/-
Verification of the node lifecycle, caching, locking and value-cleaning
subsystem of the aiida_core repository, as a shallow embedding in Lean 4.

Each Python function that the claims touch is translated into an executable
Lean definition operating on explicit state; exceptions become values of
the `Exc` type threaded through `Except` or an `Option Exc` component.
-/
import Mathlib

set_option autoImplicit false

namespace Aiida

/-- The exception taxonomy of aiida.common.exceptions, plus the external
exception classes that the modelled code raises or catches
(django IntegrityError, SQLAlchemyError, generic ValueError).  Only the
classes and their messages matter to the modelled control flow. -/
inductive Exc where
  | modificationNotAllowed (msg : String)
  | storingNotAllowed (msg : String)
  | validationError (msg : String)
  | lockError (msg : String)
  | invalidOperation (msg : String)
  | integrityError (msg : String)
  | valueError (msg : String)
  | sqlalchemyError (msg : String)
  | uniquenessError (msg : String)
  | internalError (msg : String)
  | otherError (msg : String)
  deriving DecidableEq, Repr

/-- Association-list update used to model attribute / extras dictionaries:
set key `k` to `v`, replacing an existing binding or appending a new one. -/
def assocSet {α : Type} (l : List (String × α)) (k : String) (v : α) : List (String × α) :=
  match l with
  | [] => [(k, v)]
  | (k', v') :: rest => if k' = k then (k, v) :: rest else (k', v') :: assocSet rest k v

/-- Association-list lookup modelling Python dict `get`. -/
def assocFind {α : Type} (l : List (String × α)) (k : String) : Option α :=
  match l with
  | [] => none
  | (k', v') :: rest => if k' = k then some v' else assocFind rest k

namespace CleanValue

/-
Model of aiida.orm.utils.node.clean_value (src/aiida/orm/utils/node.py,
lines 111-159).  Python runtime values that can be passed as attributes or
extras are embedded as the inductive `PyValue`.  A float is represented by
its classification (a finite value carried as a rational, or nan / inf /
-inf); `math.isnan` / `math.isinf` are only true on floats, since on int
and bool they always return False.
-/

/-- Classification of a Python float. -/
inductive PyFloat where
  | finite (q : ℚ)
  | nan
  | inf
  | negInf
  deriving DecidableEq, Repr

/-- A built-in scalar Python value (instances of numbers.Real are int,
bool and float; str and None are the remaining scalars reachable here). -/
inductive Builtin where
  | pint (n : ℤ)
  | pbool (b : Bool)
  | pfloat (f : PyFloat)
  | pstr (s : String)
  | pnone
  deriving DecidableEq, Repr

/-- Whether `isinstance(val, numbers.Real) and (math.isnan(val) or math.isinf(val))`
holds: only nan or infinite floats qualify. -/
def isBadReal : Builtin → Bool
  | .pfloat .nan => true
  | .pfloat .inf => true
  | .pfloat .negInf => true
  | _ => false

/-- The ValidationError message raised on nan / inf values. -/
def badFloatMsg : String := "nan and inf/-inf can not be serialized to the database"

/-- The inner `clean_builtin` helper of `clean_value`: raise ValidationError
on nan / inf, otherwise return the value unchanged. -/
def clean_builtin (v : Builtin) : Except Exc Builtin :=
  if isBadReal v then
    .error (.validationError badFloatMsg)
  else
    .ok v

/-- Tag distinguishing a Python `dict` from another `collections.Mapping`. -/
inductive MapKind where
  | dict
  | otherMapping
  deriving DecidableEq, Repr

/-- Tag distinguishing a Python `list` from another non-string iterable
(tuple, set, the aiida `List` data node, ...). -/
inductive SeqKind where
  | pylist
  | otherIterable
  deriving DecidableEq, Repr

/-- A Python value as dispatched on by `clean_value`: a BaseType aiida node
wrapping a built-in scalar in its `.value`, a Mapping, a non-string
iterable, or a built-in scalar.  (String is a scalar: `clean_value`
explicitly excludes strings from the iterable branch.) -/
inductive PyValue where
  | builtin (v : Builtin)
  | baseType (v : Builtin)
  | mapping (kind : MapKind) (entries : List (String × PyValue))
  | iterable (kind : SeqKind) (entries : List PyValue)

mutual

/-- Shallow embedding of `clean_value`: BaseType nodes are unwrapped through
`clean_builtin`, Mappings are rebuilt as dict comprehensions, non-string
iterables as list comprehensions, and scalars pass through `clean_builtin`. -/
def clean_value : PyValue → Except Exc PyValue
  | .baseType v => (clean_builtin v).map .builtin
  | .mapping _ entries => (cleanEntries entries).map (.mapping .dict)
  | .iterable _ entries => (cleanElems entries).map (.iterable .pylist)
  | .builtin v => (clean_builtin v).map .builtin

/-- The dict comprehension of the Mapping branch of `clean_value`: values
are cleaned in order and the first exception propagates. -/
def cleanEntries : List (String × PyValue) → Except Exc (List (String × PyValue))
  | [] => .ok []
  | (k, v) :: rest =>
    match clean_value v with
    | .error e => .error e
    | .ok v' =>
      match cleanEntries rest with
      | .error e => .error e
      | .ok rest' => .ok ((k, v') :: rest')

/-- The list comprehension of the iterable branch of `clean_value`: elements
are cleaned in order and the first exception propagates. -/
def cleanElems : List PyValue → Except Exc (List PyValue)
  | [] => .ok []
  | v :: rest =>
    match clean_value v with
    | .error e => .error e
    | .ok v' =>
      match cleanElems rest with
      | .error e => .error e
      | .ok rest' => .ok (v' :: rest')

end

mutual

/-- Whether the value contains, recursively through mappings, iterables and
BaseType-wrapped values, a float nan or infinity. -/
def hasBadFloat : PyValue → Bool
  | .builtin v => isBadReal v
  | .baseType v => isBadReal v
  | .mapping _ entries => hasBadFloatEntries entries
  | .iterable _ entries => hasBadFloatElems entries

/-- `hasBadFloat` over the entries of a mapping. -/
def hasBadFloatEntries : List (String × PyValue) → Bool
  | [] => false
  | (_, v) :: rest => hasBadFloat v || hasBadFloatEntries rest

/-- `hasBadFloat` over the elements of an iterable. -/
def hasBadFloatElems : List PyValue → Bool
  | [] => false
  | v :: rest => hasBadFloat v || hasBadFloatElems rest

end

mutual

/-- The structure `clean_value` returns on success: every BaseType node is
replaced by its wrapped scalar, every mapping becomes a dict, every
non-string iterable becomes a list; scalars are kept unchanged. -/
def normalize : PyValue → PyValue
  | .builtin v => .builtin v
  | .baseType v => .builtin v
  | .mapping _ entries => .mapping .dict (normalizeEntries entries)
  | .iterable _ entries => .iterable .pylist (normalizeElems entries)

/-- `normalize` over the entries of a mapping. -/
def normalizeEntries : List (String × PyValue) → List (String × PyValue)
  | [] => []
  | (k, v) :: rest => (k, normalize v) :: normalizeEntries rest

/-- `normalize` over the elements of an iterable. -/
def normalizeElems : List PyValue → List PyValue
  | [] => []
  | v :: rest => normalize v :: normalizeElems rest

end

mutual

/-- Whether a value already has the shape `clean_value` produces: no
BaseType nodes anywhere, every mapping a dict, every iterable a list. -/
def isCleaned : PyValue → Bool
  | .builtin _ => true
  | .baseType _ => false
  | .mapping k entries => k == .dict && isCleanedEntries entries
  | .iterable k entries => k == .pylist && isCleanedElems entries

/-- `isCleaned` over the entries of a mapping. -/
def isCleanedEntries : List (String × PyValue) → Bool
  | [] => true
  | (_, v) :: rest => isCleaned v && isCleanedEntries rest

/-- `isCleaned` over the elements of an iterable. -/
def isCleanedElems : List PyValue → Bool
  | [] => true
  | v :: rest => isCleaned v && isCleanedElems rest

end

end CleanValue

namespace Kill

/-
Model of WorkCalculation.kill
(src/aiida/orm/implementation/general/calculation/work.py, lines 65-83).

The function records an abort request on the calculation's own attributes
(only while unsealed) and then calls kill() on every node reachable by an
outgoing CALL link, catching InvalidOperation and skipping it exactly when
the child is a JobCalculation instance.  The children's own kill() calls
are other classes' methods; at this dispatch site a child is therefore a
pair of its class kind and the outcome its kill() call produces.
-/

/-- The DO_ABORT_KEY attribute name of WorkCalculation. -/
def DO_ABORT_KEY : String := "_do_abort"

/-- The concrete class of a CALL-linked child calculation, as tested by
`isinstance(child, JobCalculation)`. -/
inductive CalcKind where
  | jobCalculation
  | workCalculation
  deriving DecidableEq, Repr

/-- A CALL-linked child at the kill() dispatch site: its class kind and the
outcome of its own kill() call. -/
structure Child where
  kind : CalcKind
  killResult : Except Exc Unit

/-- Modelled from the spec: JobCalculation.kill (aiida.orm.calculation.job is
not under src/) raises InvalidOperation exactly when the calculation is
already terminated and hence cannot be killed, and otherwise succeeds. -/
def jobKill (alreadyTerminated : Bool) : Except Exc Unit :=
  if alreadyTerminated then
    .error (.invalidOperation "calculation already killed")
  else
    .ok ()

/-- The loop over `self.get_outputs(link_type=LinkType.CALL)` in
WorkCalculation.kill: each child's kill() is attempted; an InvalidOperation
is suppressed when the child is a JobCalculation and re-raised otherwise;
any other exception propagates uncaught. -/
def killChildren : List Child → Except Exc Unit
  | [] => .ok ()
  | c :: rest =>
    match c.killResult with
    | .ok _ => killChildren rest
    | .error (.invalidOperation m) =>
      if c.kind = .jobCalculation then killChildren rest
      else .error (.invalidOperation m)
    | .error e => .error e

/-- The attribute state of the WorkCalculation node being killed. -/
structure WorkCalcState where
  isSealed : Bool
  attrs : List (String × String)
  deriving DecidableEq, Repr

/-- WorkCalculation.kill: record the abort request while unsealed, then kill
every CALL-linked child.  The attribute mutation happens before the loop,
so it survives even when the loop raises; the returned pair is the
(possibly mutated) node state together with the raised exception, if any. -/
def kill (self : WorkCalcState) (callChildren : List Child) : WorkCalcState × Option Exc :=
  let self' :=
    if ¬ self.isSealed then
      { self with attrs := assocSet self.attrs DO_ABORT_KEY "killed by user" }
    else
      self
  match killChildren callChildren with
  | .ok _ => (self', none)
  | .error e => (self', some e)

end Kill

namespace Lock

/-
Model of the django Calculation.lock context manager and force_unlock
(src/aiida/orm/implementation/django/calculation/__init__.py, lines 18-81),
for a stored calculation node (the claim's case).

The persisted per-row flag is the DbNode `public` column; each in-process
handle additionally holds its own in-memory `_dbnode.public` copy and the
registration state of its force_unlock shutdown callback.  A whole
`with node.lock(): body` scope is executed at once: the body runs on the
locked state and reports its final state together with an optional raised
exception, mirroring the generator-based context manager.
-/

/-- The persisted database row state shared by all handles of the node. -/
structure DbRow where
  public : Bool
  deriving DecidableEq, Repr

/-- One in-process handle of the calculation node. -/
structure Handle where
  memPublic : Bool
  callbackRegistered : Bool
  deriving DecidableEq, Repr

/-- The message of the LockError raised by lock() on a stored node. -/
def lockErrMsg : String := "cannot lock calculation as it is already locked."

/-- Django `DbNode.objects.update_or_create(pk=self.pk, public=False,
defaults=dict(public=True))`: when the row matches `public=False` it is
updated to `public=True`; otherwise a create of a row with the same pk is
attempted, which violates the primary-key uniqueness constraint and raises
IntegrityError. -/
def update_or_create (db : DbRow) : Except Exc DbRow :=
  if db.public = false then .ok { public := true }
  else .error (.integrityError "duplicate key value violates unique constraint")

/-- Calculation.force_unlock on a stored node: reset the in-memory flag and
persist `public = False` with `save(update_fields=('public',))`. -/
def force_unlock (_db : DbRow) (h : Handle) : DbRow × Handle :=
  ({ public := false }, { h with memPublic := false })

/-- The outcome a lock-scope body produces: the states it leaves behind and
the exception it raises, if any. -/
abbrev BodyOutcome := DbRow × Handle × Option Exc

/-- One full `with self.lock(): body` scope on a stored node.  The inner
try acquires via `update_or_create`, registers the shutdown callback and
sets the in-memory flag, then runs the body; the inner `finally`
deregisters the callback and calls force_unlock unconditionally; the outer
`except IntegrityError` converts that exception into a LockError. -/
def lockScope (db : DbRow) (h : Handle)
    (body : DbRow → Handle → BodyOutcome) : BodyOutcome :=
  match update_or_create db with
  | .error e =>
    let h1 : Handle := { h with callbackRegistered := false }
    let (db1, h2) := force_unlock db h1
    match e with
    | .integrityError _ => (db1, h2, some (.lockError lockErrMsg))
    | _ => (db1, h2, some e)
  | .ok dbLocked =>
    let h1 : Handle := { h with callbackRegistered := true, memPublic := true }
    let (db2, h2, exc) := body dbLocked h1
    let h3 : Handle := { h2 with callbackRegistered := false }
    let (db3, h4) := force_unlock db2 h3
    match exc with
    | some (.integrityError _) => (db3, h4, some (.lockError lockErrMsg))
    | other => (db3, h4, other)

/-- A body that raises nothing and leaves the states as it received them. -/
def idBody : DbRow → Handle → BodyOutcome := fun db h => (db, h, none)

end Lock

namespace StoreModel

/-
Model of the AbstractNode store machinery (src/aiida/orm/oldnode.py) over
a world of nodes, together with the SQLAlchemy backend store
(src/aiida/orm/implementation/sqlalchemy/oldnode.py).

Nodes are identified by natural-number ids (the world's id also serves as
the database pk assigned at store time).  A node record carries both the
in-memory object state (attribute cache, incoming-links cache, sandbox
folder) and its database-visible state (persisted attributes, extras,
permanent repository folder); the `dbCommitted` flag records whether the
node's database transaction has been committed.  External collaborators
that are not part of this repository's files — the `make_hash` digest of
aiida.common.hashing, the per-class `get_use_cache` configuration of
aiida.manage.caching, and the possibility of storage-layer failures in
`session.add`, link insertion and `session.commit` — are injected through
the `Config` record.
-/

/-- Attribute dictionaries: string keys to (opaque) serialized values. -/
abbrev Attrs := List (String × String)

/-- Repository folder contents: relative path to file content. -/
abbrev Folder := List (String × String)

/-- An extras value; `none` models JSON null (clear_hash stores None). -/
abbrev ExtraVal := Option String

/-- The provenance link types used by the modelled code paths. -/
inductive LinkType where
  | inputLink
  | createLink
  | returnLink
  | callLink
  deriving DecidableEq, Repr

/-- A cached incoming link held on an unstored target (a LinkTriple of
aiida.orm.utils.links: source node id, link type, link label). -/
structure LinkTriple where
  source : Nat
  linkType : LinkType
  linkLabel : String
  deriving DecidableEq, Repr

/-- A persisted provenance link row. -/
structure StoredLink where
  source : Nat
  target : Nat
  linkType : LinkType
  linkLabel : String
  deriving DecidableEq, Repr

/-- The state of one node: class-level flags, identity, in-memory caches
and database-visible fields. -/
structure Node where
  uuid : String
  nodeType : String
  pk : Option Nat
  storable : Bool
  cacheable : Bool
  hashIgnoredAttributes : List String
  updatableAttributes : List String
  toBeStored : Bool
  label : String
  description : String
  attrsCache : Attrs
  dbAttributes : Attrs
  extras : List (String × ExtraVal)
  tempFolder : Option Folder
  repoFolder : Folder
  incomingCache : List LinkTriple
  computerUuid : Option String
  validCache : Bool
  dbCommitted : Bool
  deriving DecidableEq, Repr

/-- `is_stored`: the node has been passed through the storage machinery.
Consistent with every use in the sources (`_db_store` flips
`_to_be_stored` to False and immediately relies on `is_stored` being True
inside `_store_cached_input_links`). -/
def Node.is_stored (n : Node) : Bool := ! n.toBeStored

/-- The world: all nodes by id (ids below `nextId` are allocated), the
persisted links, and the groups used by autogrouping. -/
structure World where
  node : Nat → Node
  nextId : Nat
  links : List StoredLink
  groups : List (String × List Nat)

/-- Replace the node stored under id `i`. -/
def World.updNode (w : World) (i : Nat) (n : Node) : World :=
  { w with node := fun j => if j = i then n else w.node j }

/-- The `_aiida_hash` extras key (aiida.common.hashing._HASH_EXTRA_KEY). -/
def hashKey : String := "_aiida_hash"

/-- The extras key recording the cache source written by `_store_from_cache`. -/
def cachedFromKey : String := "_aiida_cached_from"

/-- Modelled from the spec: Sealable.SEALED_KEY (aiida.orm.mixins is not
under src/), the attribute key marking a sealed process node, skipped when
copying attributes from a cache hit. -/
def SEALED_KEY : String := "_sealed"

/-- The objects hashed by `get_hash` (`_get_objects_to_hash`): the code
version, the non-ignored non-updatable attributes, the folder and the
computer uuid. -/
structure HashObjects where
  codeVersion : String
  attrs : Attrs
  folderContents : Folder
  computerUuid : Option String
  deriving DecidableEq, Repr

/-- The autogroup configuration consulted at the end of store(). -/
structure Autogroup where
  isToBeGrouped : Node → Bool
  groupName : Option String

/-- Injected storage-layer behavior: the exception raised (if any) by
`session.add`, by the `_add_dblink_from` calls of
`_store_cached_input_links`, and by `session.commit`. -/
structure Behavior where
  addExc : Option Exc
  linkExc : Option Exc
  commitExc : Option Exc

/-- External collaborators of the store machinery, injected: the producing
code's version tag, `make_hash` (aiida.common.hashing, not under src/),
the per-class `get_use_cache` lookup (aiida.manage.caching, not under
src/), the `current_autogroup` global, and the storage-layer behavior. -/
structure Config where
  codeVersion : String
  makeHash : HashObjects → Except Exc String
  useCacheFor : String → Bool
  currentAutogroup : Option Autogroup
  behavior : Behavior

/-- BackendNode.attritems (src/aiida/orm/implementation/nodes.py, lines
183-192): the attribute cache before the first save, the persisted
attributes afterwards. -/
def Node.iterattrs (n : Node) : Attrs :=
  if n.is_stored then n.dbAttributes else n.attrsCache

/-- `get_attrs`: the full attribute dictionary. -/
def Node.get_attrs (n : Node) : Attrs := n.iterattrs

/-- The `folder` property: the sandbox folder while unstored (created empty
at first use), the permanent repository folder once stored. -/
def Node.folderContents (n : Node) : Folder :=
  if n.is_stored then n.repoFolder else n.tempFolder.getD []

/-- `get_extra(key, default)`. -/
def Node.get_extra (n : Node) (k : String) (d : ExtraVal) : ExtraVal :=
  match assocFind n.extras k with
  | some v => v
  | none => d

/-- `set_extra(key, value)`. -/
def Node.set_extra (n : Node) (k : String) (v : ExtraVal) : Node :=
  { n with extras := assocSet n.extras k v }

/-- `_set_attr` on an unstored node: write into the attribute cache. -/
def Node.setAttr (n : Node) (k v : String) : Node :=
  { n with attrsCache := assocSet n.attrsCache k v }

/-- `get_cache_source`: the `_aiida_cached_from` extra, or None. -/
def Node.get_cache_source (n : Node) : Option String :=
  n.get_extra cachedFromKey none

/-- `is_created_from_cache`: whether `get_cache_source` is not None. -/
def Node.is_created_from_cache (n : Node) : Bool :=
  n.get_cache_source.isSome

/-- `_get_objects_to_hash` (src/aiida/orm/oldnode.py, lines 645-657). -/
def Node.get_objects_to_hash (cfg : Config) (n : Node) : HashObjects :=
  { codeVersion := cfg.codeVersion
  , attrs := n.get_attrs.filter (fun kv =>
      !(n.hashIgnoredAttributes.contains kv.1) && !(n.updatableAttributes.contains kv.1))
  , folderContents := n.folderContents
  , computerUuid := n.computerUuid }

/-- `get_hash(ignore_errors=...)` (src/aiida/orm/oldnode.py, lines 632-643):
wrap `make_hash(self._get_objects_to_hash())` in a try; on an exception
return None when `ignore_errors`, else re-raise the original exception. -/
def Node.get_hash (cfg : Config) (n : Node) (ignore_errors : Bool) :
    Except Exc (Option String) :=
  match cfg.makeHash (n.get_objects_to_hash cfg) with
  | .ok h => .ok (some h)
  | .error e => if ignore_errors then .ok none else .error e

/-- `get_hash()` at its default `ignore_errors=True`, which never raises. -/
def Node.get_hash_default (cfg : Config) (n : Node) : Option String :=
  match n.get_hash cfg true with
  | .ok o => o
  | .error _ => none

/-- `get_outgoing(link_type=...)`: the persisted links leaving node `i`. -/
def getOutgoing (w : World) (i : Nat) (lt : LinkType) : List StoredLink :=
  w.links.filter (fun l => l.source == i && l.linkType == lt)

/-- `_iter_all_same_nodes` (src/aiida/orm/oldnode.py, lines 709-724): empty
when the class is not cacheable or the node has no (truthy) hash; else the
QueryBuilder results — stored nodes of exactly the same concrete class
(subclassing=False) whose `_aiida_hash` extra equals the hash — filtered
by the `_is_valid_cache` subclass hook. -/
def iterAllSameNodes (cfg : Config) (w : World) (i : Nat) : List Nat :=
  let n := w.node i
  if ! n.cacheable then []
  else
    match Node.get_hash_default cfg n with
    | none => []
    | some h =>
      if h = "" then []
      else
        let sameNodes := (List.range w.nextId).filter (fun j =>
          let m := w.node j
          m.is_stored && m.nodeType == n.nodeType && assocFind m.extras hashKey == some (some h))
        sameNodes.filter (fun j => (w.node j).validCache)

/-- `_get_same_node`: the first entry of `_iter_all_same_nodes`, or None. -/
def getSameNode (cfg : Config) (w : World) (i : Nat) : Option Nat :=
  (iterAllSameNodes cfg w i).head?

/-- The ModificationNotAllowed message of `_check_are_parents_stored`,
naming the offending link's label. -/
def parentsNotStoredMsg (lbl : String) : String :=
  "Cannot store the incoming link triple " ++ lbl ++
    " because the source node is not stored. Either store it first, or call _store_input_links with store_parents set to True"

/-- `_check_are_parents_stored` (src/aiida/orm/oldnode.py, lines 487-497):
raise ModificationNotAllowed at the first cached incoming link whose
source node is not stored, naming the link's label. -/
def checkAreParentsStored (w : World) (n : Node) : Option Exc :=
  match n.incomingCache.find? (fun t => (w.node t.source).toBeStored) with
  | some t => some (.modificationNotAllowed (parentsNotStoredMsg t.linkLabel))
  | none => none

/-- `_get_temp_folder` (src/aiida/orm/oldnode.py, lines 361-372): the
sandbox folder, created empty at first use. -/
def getTempFolder (n : Node) : Folder × Node :=
  match n.tempFolder with
  | some f => (f, n)
  | none => ([], { n with tempFolder := some [] })

/-- The compensating action of `_db_store`'s except block:
`self._get_temp_folder().replace_with_folder(self._repository_folder.abspath,
move=True, overwrite=True)` — the repository files are moved back into the
(re-created) sandbox. -/
def restoreFilesToSandbox (n : Node) : Node :=
  let (_, n1) := getTempFolder n
  { n1 with tempFolder := some n1.repoFolder, repoFolder := [] }

/-- `_store_cached_input_links` (src/aiida/orm/implementation/sqlalchemy/
oldnode.py, lines 213-258): refuse on an unstored node, re-check that all
parents are stored, persist every cached triple as a link row (failures of
the individual `_add_dblink_from` calls are injected through
`Behavior.linkExc`, in which case no row becomes visible because the
transaction is never committed), clear the cache, and commit when asked
(a failing commit rolls the uncommitted link rows back and re-raises). -/
def storeCachedInputLinks (cfg : Config) (wt : Bool) (w : World) (i : Nat) :
    World × Option Exc :=
  let n := w.node i
  if n.toBeStored then
    (w, some (.modificationNotAllowed "cannot store cached incoming links for unstored Node"))
  else
    match checkAreParentsStored w n with
    | some e => (w, some e)
    | none =>
      match cfg.behavior.linkExc with
      | some e => (w, some e)
      | none =>
        let newLinks := n.incomingCache.map (fun t =>
          { source := t.source, target := i
            , linkType := t.linkType, linkLabel := t.linkLabel : StoredLink })
        let w1 := (w.updNode i { n with incomingCache := [] })
        let w2 := { w1 with links := w1.links ++ newLinks }
        if wt then
          match cfg.behavior.commitExc with
          | some e => ({ w2 with links := w.links }, some e)
          | none => (w2, none)
        else
          (w2, none)

/-- `_db_store` (src/aiida/orm/implementation/sqlalchemy/oldnode.py, lines
260-327): first move the sandbox folder into the permanent repository
location; then, inside a try, add the row, write the cached attributes,
drop the attribute cache, flip `_to_be_stored`, persist the cached input
links, and commit; on any failure inside the try, move the files back to
the sandbox and re-raise the original exception unchanged; after success,
write the content hash as the `_aiida_hash` extra. -/
def db_store (cfg : Config) (wt : Bool) (w : World) (i : Nat) : World × Option Exc :=
  let n := w.node i
  let (tf, n0) := getTempFolder n
  let n1 := { n0 with repoFolder := tf, tempFolder := some [] }
  match cfg.behavior.addExc with
  | some e => (w.updNode i (restoreFilesToSandbox n1), some e)
  | none =>
    let n2 := { n1 with pk := some i }
    let n3 := { n2 with dbAttributes := n2.attrsCache, attrsCache := [] }
    let n4 := { n3 with tempFolder := none }
    let n5 := { n4 with toBeStored := false }
    let w5 := w.updNode i n5
    match storeCachedInputLinks cfg false w5 i with
    | (w6, some e) => (w6.updNode i (restoreFilesToSandbox (w6.node i)), some e)
    | (w6, none) =>
      if wt then
        match cfg.behavior.commitExc with
        | some e =>
          let w7 := { w6 with links := w.links }
          (w7.updNode i (restoreFilesToSandbox (w7.node i)), some e)
        | none =>
          let w7 := w6.updNode i { w6.node i with dbCommitted := true }
          let m := w7.node i
          (w7.updNode i (m.set_extra hashKey (Node.get_hash_default cfg m)), none)
      else
        let m := w6.node i
        (w6.updNode i (m.set_extra hashKey (Node.get_hash_default cfg m)), none)

/-- The `_unstorable_message` of AbstractNode. -/
def unstorableMessage : String :=
  "only Data, WorkflowNode, CalculationNode or their subclasses can be stored"

/-- The autogrouping block at the end of store() (src/aiida/orm/oldnode.py,
lines 566-578): when a `current_autogroup` is configured and elects this
node, add the node to the (possibly fresh) group under the group label. -/
def autogroupStep (cfg : Config) (w : World) (i : Nat) : World × Option Exc :=
  match cfg.currentAutogroup with
  | none => (w, none)
  | some ag =>
    if ag.isToBeGrouped (w.node i) then
      match ag.groupName with
      | some gl =>
        let groups' :=
          match assocFind w.groups gl with
          | some members => assocSet w.groups gl (members ++ [i])
          | none => assocSet w.groups gl [i]
        ({ w with groups := groups' }, none)
      | none => (w, none)
    else (w, none)

/-- Modelled from the spec: Data.clone (aiida.orm.data is not under src/)
returns a new unstored node of the same class carrying the same label,
description, attributes and repository files, with a fresh identity (new
uuid, no pk yet), empty extras and no links. -/
def Node.clone (n : Node) (freshId : Nat) : Node :=
  { uuid := "uuid-clone-" ++ toString freshId
  , nodeType := n.nodeType
  , pk := none
  , storable := n.storable
  , cacheable := n.cacheable
  , hashIgnoredAttributes := n.hashIgnoredAttributes
  , updatableAttributes := n.updatableAttributes
  , toBeStored := true
  , label := n.label
  , description := n.description
  , attrsCache := n.get_attrs
  , dbAttributes := []
  , extras := []
  , tempFolder := some n.folderContents
  , repoFolder := []
  , incomingCache := []
  , computerUuid := n.computerUuid
  , validCache := n.validCache
  , dbCommitted := false }

/-- Modelled from the spec: add_incoming on an unstored target
(aiida.orm.utils.links is not under src/) appends the link triple to the
target's in-memory incoming-links cache. -/
def Node.add_incoming (n : Node) (source : Nat) (lt : LinkType) (lbl : String) : Node :=
  { n with incomingCache :=
      n.incomingCache ++ [{ source := source, linkType := lt, linkLabel := lbl }] }

/-- The node state `_db_store` produces just before writing the hash extra:
files moved into the repository, row added with the cached attributes
written, caches cleared, stored flag flipped, transaction committed (used
to state the theorems about the backend store). -/
def dbStoredNodePreN (n : Node) (f : Folder) (i : Nat) : Node :=
  { n with
      repoFolder := f, tempFolder := none, pk := some i,
      dbAttributes := n.attrsCache, attrsCache := [], toBeStored := false,
      incomingCache := [], dbCommitted := true }

/-- The node state `_db_store` leaves behind on success: the committed node
with its content hash written as the `_aiida_hash` extra. -/
def dbStoredNodeN (cfg : Config) (n : Node) (f : Folder) (i : Nat) : Node :=
  (dbStoredNodePreN n f i).set_extra hashKey
    (Node.get_hash_default cfg (dbStoredNodePreN n f i))

/-- The node `_add_outputs_from_cache` produces for one CREATE-linked
output `orig` of the cache source: the clone of `orig`, linked from node
`selfId` under label `lbl`, stored under the fresh id `d`. -/
def storedCloneNode (cfg : Config) (orig : Node) (selfId : Nat) (lbl : String)
    (d : Nat) : Node :=
  dbStoredNodeN cfg ((orig.clone d).add_incoming selfId .createLink lbl)
    orig.folderContents d

/-- The state `_store_from_cache` leaves on the target node after copying
the matched node's label, description, non-sealed attributes and folder,
before storing it (used to state the theorems about the cache-hit path). -/
def cacheCopiedNode (w : World) (i cacheId : Nat) : Node :=
  { w.node i with
      label := (w.node cacheId).label,
      description := (w.node cacheId).description,
      attrsCache := (w.node cacheId).iterattrs.foldl
        (fun a kv => if kv.1 ≠ SEALED_KEY then assocSet a kv.1 kv.2 else a)
        (w.node i).attrsCache,
      tempFolder := some (w.node cacheId).folderContents }

mutual

/-- `store` (src/aiida/orm/oldnode.py, lines 522-582): refuse unstorable
classes, validate (the base `_validate` always succeeds), and — only when
the node is still to be stored — check that parents are stored, consult
the cache (`use_cache` defaulting to the per-class configuration) and
either store from the cache hit plus clone its CREATE outputs, or perform
the backend store; finally run autogrouping and return self.  Recursion
(a cache-hit store re-enters store with caching disabled, and each cloned
output is stored) is bounded by explicit fuel. -/
def store (fuel : Nat) (cfg : Config) (w : World) (i : Nat) (wt : Bool)
    (useCache : Option Bool) : World × Option Exc :=
  match fuel with
  | 0 => (w, some (.internalError "recursion fuel exhausted"))
  | f + 1 =>
    let n := w.node i
    if ! n.storable then (w, some (.storingNotAllowed unstorableMessage))
    else
      if n.toBeStored then
        match checkAreParentsStored w n with
        | some e => (w, some e)
        | none =>
          let uc := useCache.getD (cfg.useCacheFor n.nodeType)
          let sameNode := if uc then getSameNode cfg w i else none
          match sameNode with
          | some cacheId =>
            match storeFromCache f cfg w i cacheId wt with
            | (w1, some e) => (w1, some e)
            | (w1, none) =>
              match addOutputsFromCache f cfg w1 i cacheId with
              | (w2, some e) => (w2, some e)
              | (w2, none) => autogroupStep cfg w2 i
          | none =>
            match db_store cfg wt w i with
            | (w1, some e) => (w1, some e)
            | (w1, none) => autogroupStep cfg w1 i
      else (w, none)

/-- `_store_from_cache` (src/aiida/orm/oldnode.py, lines 584-602): assert
equal types, copy label, description, all attributes except the sealed
key, and the repository folder from the matched node; reject matches with
outgoing RETURN links; store self with caching disabled; record the
`_aiida_cached_from` extra with the matched node's uuid. -/
def storeFromCache (fuel : Nat) (cfg : Config) (w : World) (i cacheId : Nat)
    (wt : Bool) : World × Option Exc :=
  let cacheNode := w.node cacheId
  if (w.node i).nodeType ≠ cacheNode.nodeType then
    (w, some (.internalError "assert self.type == cache_node.type failed"))
  else
    let n1 := { w.node i with label := cacheNode.label, description := cacheNode.description }
    let n2 := cacheNode.iterattrs.foldl
      (fun m kv => if kv.1 ≠ SEALED_KEY then m.setAttr kv.1 kv.2 else m) n1
    let n3 := { n2 with tempFolder := some cacheNode.folderContents }
    let w3 := w.updNode i n3
    if getOutgoing w3 cacheId .returnLink ≠ [] then
      (w3, some (.valueError "Cannot use cache from nodes with RETURN links."))
    else
      match store fuel cfg w3 i wt (some false) with
      | (w4, some e) => (w4, some e)
      | (w4, none) =>
        let m := w4.node i
        (w4.updNode i (m.set_extra cachedFromKey (some cacheNode.uuid)), none)

/-- `_add_outputs_from_cache` (src/aiida/orm/oldnode.py, lines 604-609):
for every CREATE-linked output of the cache source, clone it, link the
clone to self with a CREATE link of the same label, and store it. -/
def addOutputsFromCache (fuel : Nat) (cfg : Config) (w : World) (i cacheId : Nat) :
    World × Option Exc :=
  cloneOutputs fuel cfg w i (getOutgoing w cacheId .createLink)

/-- The loop body of `_add_outputs_from_cache` over the query result. -/
def cloneOutputs (fuel : Nat) (cfg : Config) (w : World) (i : Nat) :
    List StoredLink → World × Option Exc
  | [] => (w, none)
  | entry :: rest =>
    let newId := w.nextId
    let cloned := ((w.node entry.target).clone newId).add_incoming i .createLink entry.linkLabel
    let w1 := { w.updNode newId cloned with nextId := w.nextId + 1 }
    match store fuel cfg w1 newId true none with
    | (w2, some e) => (w2, some e)
    | (w2, none) => cloneOutputs fuel cfg w2 i rest

end

/-- The loop of `_store_input_nodes` over the incoming cache: store each
source that is not stored yet, without a transaction. -/
def storeUnstoredSources (fuel : Nat) (cfg : Config) :
    List LinkTriple → World → World × Option Exc
  | [], w => (w, none)
  | t :: rest, w =>
    if (w.node t.source).toBeStored then
      match store fuel cfg w t.source false none with
      | (w1, some e) => (w1, some e)
      | (w1, none) => storeUnstoredSources fuel cfg rest w1
    else storeUnstoredSources fuel cfg rest w

/-- `_store_input_nodes` (src/aiida/orm/oldnode.py, lines 471-485): refuse
on a stored node; store (without transaction) every cached incoming
link's source that is not stored yet. -/
def storeInputNodes (fuel : Nat) (cfg : Config) (w : World) (i : Nat) :
    World × Option Exc :=
  let n := w.node i
  if ! n.toBeStored then
    (w, some (.modificationNotAllowed
      "Node is already stored, but this method can only be called for unstored nodes"))
  else
    storeUnstoredSources fuel cfg n.incomingCache w

/-- `_db_store_all` (src/aiida/orm/implementation/sqlalchemy/oldnode.py,
lines 189-211): store the input nodes, store self without transaction,
persist the cached input links, then commit (rolling back on failure). -/
def db_store_all (fuel : Nat) (cfg : Config) (w : World) (i : Nat) (wt : Bool)
    (useCache : Option Bool) : World × Option Exc :=
  match storeInputNodes fuel cfg w i with
  | (w1, some e) => (w1, some e)
  | (w1, none) =>
    match store fuel cfg w1 i false useCache with
    | (w2, some e) => (w2, some e)
    | (w2, none) =>
      match storeCachedInputLinks cfg false w2 i with
      | (w3, some e) => (w3, some e)
      | (w3, none) =>
        if wt then
          match cfg.behavior.commitExc with
          | some e => ({ w3 with links := w.links }, some e)
          | none => (w3.updNode i { w3.node i with dbCommitted := true }, none)
        else (w3, none)

/-- The textual pk used in store_all's error messages (`self.id`). -/
def Node.pkString (n : Node) : String :=
  match n.pk with
  | some p => toString p
  | none => "None"

/-- `store_all` (src/aiida/orm/oldnode.py, lines 433-454): raise
ModificationNotAllowed when the node is already stored; for every cached
incoming link's source, check that its own parents are stored (re-raising
with the one-level-cascading message); then `_db_store_all`. -/
def store_all (fuel : Nat) (cfg : Config) (w : World) (i : Nat) (wt : Bool)
    (useCache : Option Bool) : World × Option Exc :=
  let n := w.node i
  if ! n.toBeStored then
    (w, some (.modificationNotAllowed ("Node<" ++ n.pkString ++ "> is already stored")))
  else
    match n.incomingCache.find? (fun t => (checkAreParentsStored w (w.node t.source)).isSome) with
    | some t => (w, some (.modificationNotAllowed
        ("source Node<" ++ (w.node t.source).pkString ++
         "> has unstored parents, cannot proceed (only direct parents can be unstored and will be stored by store_all, not grandparents or other ancestors")))
    | none => db_store_all fuel cfg w i wt useCache

end StoreModel

/-
Concrete sample data used by the closed witness and counterexample
theorems below.
-/

/-- A sample storable, cacheable data node in its freshly-created state. -/
def sampleNode : StoreModel.Node :=
  { uuid := "u-self"
  , nodeType := "data.int.Int."
  , pk := none
  , storable := true
  , cacheable := true
  , hashIgnoredAttributes := []
  , updatableAttributes := []
  , toBeStored := true
  , label := ""
  , description := ""
  , attrsCache := []
  , dbAttributes := []
  , extras := []
  , tempFolder := some []
  , repoFolder := []
  , incomingCache := []
  , computerUuid := none
  , validCache := true
  , dbCommitted := false }

/-- A configuration whose external make_hash always fails. -/
def failHashCfg : StoreModel.Config :=
  { codeVersion := "1.0"
  , makeHash := fun _ => .error (.otherError "unhashable object")
  , useCacheFor := fun _ => false
  , currentAutogroup := none
  , behavior := { addExc := none, linkExc := none, commitExc := none } }

/-- A benign configuration: hashing succeeds, caching disabled, no
autogroup, no storage-layer failures. -/
def plainCfg : StoreModel.Config :=
  { codeVersion := "1.0"
  , makeHash := fun _ => .ok "h0"
  , useCacheFor := fun _ => false
  , currentAutogroup := none
  , behavior := { addExc := none, linkExc := none, commitExc := none } }

/-- The benign configuration with a failing `_add_dblink_from`. -/
def linkFailCfg : StoreModel.Config :=
  { plainCfg with behavior := { addExc := none
                              , linkExc := some (.uniquenessError "duplicate link label")
                              , commitExc := none } }

/-- A sample node that is already stored. -/
def storedSampleNode : StoreModel.Node :=
  { sampleNode with
      uuid := "u-stored", toBeStored := false, pk := some 0,
      dbAttributes := [("value", "41")], tempFolder := none, dbCommitted := true }

/-- A world holding only the stored sample node (id 0). -/
def storedWorld : StoreModel.World :=
  { node := fun _ => storedSampleNode, nextId := 1, links := [], groups := [] }

/-- A world for the unstored-parent checks: node 0 is an unstored source,
node 1 an unstored target holding one cached incoming link from node 0. -/
def unstoredParentWorld : StoreModel.World :=
  { node := fun j =>
      if j = 1 then
        { sampleNode with
            uuid := "u-target",
            incomingCache := [{ source := 0, linkType := .inputLink, linkLabel := "in0" }] }
      else { sampleNode with uuid := "u-parent" }
  , nextId := 2, links := [], groups := [] }

/-- A world for the db_store failure checks: node 0 is unstored with one
file in its sandbox and one cached incoming link from the stored node 1. -/
def dbStoreWorld : StoreModel.World :=
  { node := fun j =>
      if j = 1 then storedSampleNode
      else
        { sampleNode with
            attrsCache := [("value", "42")],
            tempFolder := some [("data.txt", "payload")],
            incomingCache := [{ source := 1, linkType := .inputLink, linkLabel := "in0" }] }
  , nextId := 2, links := [], groups := [] }

/-- A stored cache-source node: same concrete class as sampleNode, carrying
the hash extra h0, a label, a description, attributes (one of them the
sealed key) and repository files. -/
def cacheSourceNode : StoreModel.Node :=
  { sampleNode with
      uuid := "u-cache", toBeStored := false, pk := some 0,
      label := "cached label", description := "cached description",
      dbAttributes := [("value", "41"), ("_sealed", "true")],
      extras := [("_aiida_hash", some "h0")],
      tempFolder := none,
      repoFolder := [("out.txt", "cached file")],
      dbCommitted := true }

/-- A stored CREATE-output of the cache source, of a different class. -/
def cacheOutputNode : StoreModel.Node :=
  { sampleNode with
      uuid := "u-out", nodeType := "data.float.Float.", toBeStored := false,
      pk := some 2, dbAttributes := [("payload", "3.14")],
      tempFolder := none, repoFolder := [("res.txt", "result")],
      dbCommitted := true }

/-- A world for the caching claims: node 0 is the stored cache source with
one CREATE-linked output (node 2); node 1 is the unstored node about to be
stored. -/
def cacheWorld : StoreModel.World :=
  { node := fun j => if j = 0 then cacheSourceNode
      else if j = 2 then cacheOutputNode
      else { sampleNode with uuid := "u-self" }
  , nextId := 3
  , links := [{ source := 0, target := 2, linkType := .createLink, linkLabel := "result" }]
  , groups := [] }

/-- The caching world with an additional RETURN-typed outgoing link on the
cache source. -/
def returnLinkWorld : StoreModel.World :=
  { cacheWorld with
      links := cacheWorld.links ++
        [{ source := 0, target := 2, linkType := .returnLink, linkLabel := "ret" }] }

/-
Theorems.  Helper lemmas come first, the claim theorems and their witnesses
after.
-/

theorem assocFind_assocSet_self {α : Type} (l : List (String × α)) (k : String) (v : α) :
    assocFind (assocSet l k v) k = some v := by
  induction l with
  | nil => simp [assocSet, assocFind]
  | cons hd tl ih =>
    by_cases h : hd.1 = k <;> simp [assocSet, assocFind, h, ih]

theorem assocFind_assocSet_ne {α : Type} (l : List (String × α)) (k k' : String) (v : α)
    (h : k ≠ k') : assocFind (assocSet l k v) k' = assocFind l k' := by
  induction l with
  | nil => simp [assocSet, assocFind, h]
  | cons hd tl ih =>
    by_cases h1 : hd.1 = k
    · by_cases h2 : hd.1 = k' <;> simp_all [assocSet, assocFind]
    · by_cases h2 : hd.1 = k' <;> simp_all [assocSet, assocFind]

namespace CleanValue

mutual

theorem clean_value_ok : ∀ v : PyValue, hasBadFloat v = false →
    clean_value v = .ok (normalize v)
  | .builtin b, h => by
    simp only [hasBadFloat] at h
    simp [clean_value, clean_builtin, h, normalize, Except.map]
  | .baseType b, h => by
    simp only [hasBadFloat] at h
    simp [clean_value, clean_builtin, h, normalize, Except.map]
  | .mapping k es, h => by
    simp only [hasBadFloat] at h
    simp [clean_value, normalize, cleanEntries_ok es h, Except.map]
  | .iterable k es, h => by
    simp only [hasBadFloat] at h
    simp [clean_value, normalize, cleanElems_ok es h, Except.map]

theorem cleanEntries_ok : ∀ l : List (String × PyValue), hasBadFloatEntries l = false →
    cleanEntries l = .ok (normalizeEntries l)
  | [], _ => by simp [cleanEntries, normalizeEntries]
  | (k, v) :: rest, h => by
    simp only [hasBadFloatEntries, Bool.or_eq_false_iff] at h
    simp [cleanEntries, clean_value_ok v h.1, cleanEntries_ok rest h.2, normalizeEntries]

theorem cleanElems_ok : ∀ l : List PyValue, hasBadFloatElems l = false →
    cleanElems l = .ok (normalizeElems l)
  | [], _ => by simp [cleanElems, normalizeElems]
  | v :: rest, h => by
    simp only [hasBadFloatElems, Bool.or_eq_false_iff] at h
    simp [cleanElems, clean_value_ok v h.1, cleanElems_ok rest h.2, normalizeElems]

end

mutual

theorem clean_value_err : ∀ v : PyValue, hasBadFloat v = true →
    clean_value v = .error (.validationError badFloatMsg)
  | .builtin b, h => by
    simp only [hasBadFloat] at h
    simp [clean_value, clean_builtin, h, Except.map]
  | .baseType b, h => by
    simp only [hasBadFloat] at h
    simp [clean_value, clean_builtin, h, Except.map]
  | .mapping k es, h => by
    simp only [hasBadFloat] at h
    simp [clean_value, cleanEntries_err es h, Except.map]
  | .iterable k es, h => by
    simp only [hasBadFloat] at h
    simp [clean_value, cleanElems_err es h, Except.map]

theorem cleanEntries_err : ∀ l : List (String × PyValue), hasBadFloatEntries l = true →
    cleanEntries l = .error (.validationError badFloatMsg)
  | (k, v) :: rest, h => by
    simp only [hasBadFloatEntries] at h
    cases hv : hasBadFloat v with
    | true => simp [cleanEntries, clean_value_err v hv]
    | false =>
      have hr : hasBadFloatEntries rest = true := by
        rw [hv] at h; simpa using h
      simp [cleanEntries, clean_value_ok v hv, cleanEntries_err rest hr]

theorem cleanElems_err : ∀ l : List PyValue, hasBadFloatElems l = true →
    cleanElems l = .error (.validationError badFloatMsg)
  | v :: rest, h => by
    simp only [hasBadFloatElems] at h
    cases hv : hasBadFloat v with
    | true => simp [cleanElems, clean_value_err v hv]
    | false =>
      have hr : hasBadFloatElems rest = true := by
        rw [hv] at h; simpa using h
      simp [cleanElems, clean_value_ok v hv, cleanElems_err rest hr]

end

mutual

theorem normalize_isCleaned : ∀ v : PyValue, isCleaned (normalize v) = true
  | .builtin b => by simp [normalize, isCleaned]
  | .baseType b => by simp [normalize, isCleaned]
  | .mapping k es => by simp [normalize, isCleaned, normalizeEntries_isCleaned es]
  | .iterable k es => by simp [normalize, isCleaned, normalizeElems_isCleaned es]

theorem normalizeEntries_isCleaned : ∀ l : List (String × PyValue),
    isCleanedEntries (normalizeEntries l) = true
  | [] => by simp [normalizeEntries, isCleanedEntries]
  | (k, v) :: rest => by
    simp [normalizeEntries, isCleanedEntries, normalize_isCleaned v,
      normalizeEntries_isCleaned rest]

theorem normalizeElems_isCleaned : ∀ l : List PyValue,
    isCleanedElems (normalizeElems l) = true
  | [] => by simp [normalizeElems, isCleanedElems]
  | v :: rest => by
    simp [normalizeElems, isCleanedElems, normalize_isCleaned v,
      normalizeElems_isCleaned rest]

end

end CleanValue

/-- C10: clean_value raises ValidationError exactly when the input value —
recursively through mappings, non-string iterables and values unwrapped
from BaseType nodes — contains a float nan or infinity; otherwise it
returns the rebuilt structure in which mappings have become dicts,
non-string iterables have become lists and BaseType nodes are replaced by
their underlying value.  (The model is purely functional, so the input
value itself is never mutated: the result is a freshly built deep copy by
construction.) -/
theorem C10_clean_value (v : CleanValue.PyValue) :
    (CleanValue.hasBadFloat v = true →
      CleanValue.clean_value v = .error (.validationError CleanValue.badFloatMsg)) ∧
    (CleanValue.hasBadFloat v = false →
      CleanValue.clean_value v = .ok (CleanValue.normalize v) ∧
        CleanValue.isCleaned (CleanValue.normalize v) = true) :=
  ⟨fun h => CleanValue.clean_value_err v h,
   fun h => ⟨CleanValue.clean_value_ok v h, CleanValue.normalize_isCleaned v⟩⟩

/-- Witness for C10: a nested other-mapping holding a BaseType-wrapped nan
is rejected with the ValidationError, while the same structure with a
finite float is rebuilt as a dict of a list with the BaseType unwrapped. -/
theorem C10_clean_value_witness :
    CleanValue.clean_value
        (.mapping .otherMapping [("x", .iterable .otherIterable
          [.baseType (.pfloat .nan)])]) =
      .error (.validationError CleanValue.badFloatMsg) ∧
    CleanValue.clean_value
        (.mapping .otherMapping [("x", .iterable .otherIterable
          [.baseType (.pfloat (.finite 1)), .builtin (.pint 2)])]) =
      .ok (.mapping .dict [("x", .iterable .pylist
          [.builtin (.pfloat (.finite 1)), .builtin (.pint 2)])]) := by
  constructor
  · exact (C10_clean_value _).1 (by
      simp [CleanValue.hasBadFloat, CleanValue.hasBadFloatEntries,
        CleanValue.hasBadFloatElems, CleanValue.isBadReal])
  · have h := (C10_clean_value (.mapping .otherMapping [("x", .iterable .otherIterable
      [.baseType (.pfloat (.finite 1)), .builtin (.pint 2)])])).2 (by
        simp [CleanValue.hasBadFloat, CleanValue.hasBadFloatEntries,
          CleanValue.hasBadFloatElems, CleanValue.isBadReal])
    rw [h.1]
    simp [CleanValue.normalize, CleanValue.normalizeEntries, CleanValue.normalizeElems]

/-- C9: with its default ignore_errors=True, get_hash never raises — when
make_hash (or anything inside the try) raises, None is returned instead —
and with ignore_errors=False the original exception is re-raised
unchanged. -/
theorem C9_get_hash (cfg : StoreModel.Config) (n : StoreModel.Node) :
    (∃ r, StoreModel.Node.get_hash cfg n true = .ok r) ∧
    (∀ e, cfg.makeHash (StoreModel.Node.get_objects_to_hash cfg n) = .error e →
      StoreModel.Node.get_hash cfg n true = .ok none) ∧
    (∀ e, cfg.makeHash (StoreModel.Node.get_objects_to_hash cfg n) = .error e →
      StoreModel.Node.get_hash cfg n false = .error e) := by
  refine ⟨?_, ?_, ?_⟩
  · cases h : cfg.makeHash (StoreModel.Node.get_objects_to_hash cfg n) with
    | ok hv => exact ⟨some hv, by simp [StoreModel.Node.get_hash, h]⟩
    | error e => exact ⟨none, by simp [StoreModel.Node.get_hash, h]⟩
  · intro e he
    simp [StoreModel.Node.get_hash, he]
  · intro e he
    simp [StoreModel.Node.get_hash, he]

/-- Witness for C9: a configuration whose make_hash raises makes get_hash
return None in default mode and re-raise the same exception in strict
mode. -/
theorem C9_get_hash_witness :
    StoreModel.Node.get_hash failHashCfg sampleNode true = .ok none ∧
    StoreModel.Node.get_hash failHashCfg sampleNode false =
      .error (.otherError "unhashable object") := by
  have h := C9_get_hash failHashCfg sampleNode
  have he : failHashCfg.makeHash
      (StoreModel.Node.get_objects_to_hash failHashCfg sampleNode) =
      .error (.otherError "unhashable object") := by
    simp [failHashCfg]
  exact ⟨h.2.1 _ he, h.2.2 _ he⟩

namespace Kill

theorem killChildren_ok (l : List Child)
    (h : ∀ c ∈ l, (c.kind = .jobCalculation ∧ ∃ t, c.killResult = jobKill t) ∨
      c.killResult = .ok ()) :
    killChildren l = .ok () := by
  induction l with
  | nil => simp [killChildren]
  | cons c rest ih =>
    have hrest := ih (fun c' hc' => h c' (List.mem_cons_of_mem c hc'))
    rcases h c (List.mem_cons_self c rest) with ⟨hk, t, ht⟩ | hok
    · cases t with
      | true => simp [killChildren, ht, jobKill, hk, hrest]
      | false => simp [killChildren, ht, jobKill, hrest]
    · simp [killChildren, hok, hrest]

theorem killChildren_append_err (pre post : List Child) (c : Child) (m : String)
    (hkind : c.kind ≠ .jobCalculation)
    (hres : c.killResult = .error (.invalidOperation m))
    (hpre : ∀ c' ∈ pre, (c'.kind = .jobCalculation ∧ ∃ t, c'.killResult = jobKill t) ∨
      c'.killResult = .ok ()) :
    killChildren (pre ++ c :: post) = .error (.invalidOperation m) := by
  induction pre with
  | nil => simp [killChildren, hres, hkind]
  | cons c' rest ih =>
    have hrest := ih (fun x hx => hpre x (List.mem_cons_of_mem c' hx))
    rcases hpre c' (List.mem_cons_self c' rest) with ⟨hk, t, ht⟩ | hok
    · cases t with
      | true => simp [killChildren, ht, jobKill, hk, hrest]
      | false => simp [killChildren, ht, jobKill, hrest]
    · simp [killChildren, hok, hrest]

end Kill

/-- C8: kill() on a work calculation records the abort request only while
the node is unsealed, then recursively kills every CALL-linked child;
InvalidOperation raised by a JobCalculation child whose kill follows the
already-terminated semantics is skipped, while an InvalidOperation raised
by a non-JobCalculation child propagates to the caller. -/
theorem C8_kill (self : Kill.WorkCalcState) (children : List Kill.Child)
    (hok : ∀ c ∈ children,
      (c.kind = .jobCalculation ∧ ∃ t, c.killResult = Kill.jobKill t) ∨
      c.killResult = .ok ()) :
    ((Kill.kill self children).2 = none ∧
     assocFind (Kill.kill self children).1.attrs Kill.DO_ABORT_KEY =
       (if self.isSealed then assocFind self.attrs Kill.DO_ABORT_KEY
        else some "killed by user")) ∧
    (∀ (self2 : Kill.WorkCalcState) (pre post : List Kill.Child) (c : Kill.Child)
        (m : String),
      c.kind ≠ .jobCalculation →
      c.killResult = .error (.invalidOperation m) →
      (∀ c' ∈ pre, (c'.kind = .jobCalculation ∧ ∃ t, c'.killResult = Kill.jobKill t) ∨
        c'.killResult = .ok ()) →
      (Kill.kill self2 (pre ++ c :: post)).2 = some (.invalidOperation m)) := by
  constructor
  · have hkc := Kill.killChildren_ok children hok
    constructor
    · simp [Kill.kill, hkc]
    · cases hs : self.isSealed with
      | true => simp [Kill.kill, hkc, hs]
      | false => simp [Kill.kill, hkc, hs, assocFind_assocSet_self]
  · intro self2 pre post c m hkind hres hpre
    have hkc := Kill.killChildren_append_err pre post c m hkind hres hpre
    cases hs : self2.isSealed with
    | true => simp [Kill.kill, hkc, hs]
    | false => simp [Kill.kill, hkc, hs]

/-- Witness for C8: an unsealed work calculation with an already-terminated
job child and a healthy work child is killed cleanly and records the abort
request; a sealed one whose work child raises InvalidOperation propagates
that exception past an already-terminated job child. -/
theorem C8_kill_witness :
    (Kill.kill { isSealed := false, attrs := [] }
        [ { kind := .jobCalculation, killResult := Kill.jobKill true }
        , { kind := .workCalculation, killResult := .ok () } ]).2 = none ∧
    assocFind (Kill.kill { isSealed := false, attrs := [] }
        [ { kind := .jobCalculation, killResult := Kill.jobKill true }
        , { kind := .workCalculation, killResult := .ok () } ]).1.attrs
      Kill.DO_ABORT_KEY = some "killed by user" ∧
    (Kill.kill { isSealed := true, attrs := [] }
        ([ { kind := .jobCalculation, killResult := Kill.jobKill true } ] ++
          { kind := .workCalculation,
            killResult := .error (.invalidOperation "cannot abort") : Kill.Child } ::
          [])).2 = some (.invalidOperation "cannot abort") := by
  have hhyp : ∀ c ∈ [ { kind := .jobCalculation, killResult := Kill.jobKill true }
      , { kind := .workCalculation, killResult := .ok () : Kill.Child } ],
      (c.kind = Kill.CalcKind.jobCalculation ∧ ∃ t, c.killResult = Kill.jobKill t) ∨
      c.killResult = .ok () := by
    intro c hc
    simp only [List.mem_cons, List.not_mem_nil, or_false] at hc
    rcases hc with rfl | rfl
    · exact Or.inl ⟨rfl, true, rfl⟩
    · exact Or.inr rfl
  have h1 := C8_kill { isSealed := false, attrs := [] }
    [ { kind := .jobCalculation, killResult := Kill.jobKill true }
    , { kind := .workCalculation, killResult := .ok () } ] hhyp
  refine ⟨h1.1.1, ?_, ?_⟩
  · have := h1.1.2
    simpa using this
  · exact h1.2 { isSealed := true, attrs := [] }
      [ { kind := .jobCalculation, killResult := Kill.jobKill true } ] []
      { kind := .workCalculation, killResult := .error (.invalidOperation "cannot abort") }
      "cannot abort" (by simp) rfl
      (by
        intro c hc
        simp only [List.mem_cons, List.not_mem_nil, or_false] at hc
        subst hc
        exact Or.inl ⟨rfl, true, rfl⟩)

/-- C7: while a lock() scope on a stored calculation node holds the
persisted flag, a second lock() attempt raises LockError (the integrity
violation of the conditional update-or-create is reinterpreted, and an
IntegrityError never surfaces raw); on scope exit — normal or exceptional
— the persisted flag is unconditionally cleared and the shutdown callback
deregistered, so a subsequent lock() on the node succeeds. -/
theorem C7_lock (db : Lock.DbRow) (h : Lock.Handle)
    (body : Lock.DbRow → Lock.Handle → Lock.BodyOutcome) :
    (db.public = true →
      Lock.lockScope db h body =
        ({ public := false }, { memPublic := false, callbackRegistered := false },
          some (.lockError Lock.lockErrMsg))) ∧
    (∀ m, (Lock.lockScope db h body).2.2 ≠ some (.integrityError m)) ∧
    (Lock.lockScope db h body).1.public = false ∧
    (Lock.lockScope db h body).2.1.callbackRegistered = false ∧
    (Lock.lockScope (Lock.lockScope db h body).1 h Lock.idBody).2.2 = none := by
  have hid : ∀ (d : Lock.DbRow) (g : Lock.Handle), d.public = false →
      (Lock.lockScope d g Lock.idBody).2.2 = none := by
    intro d g hd
    simp [Lock.lockScope, Lock.update_or_create, Lock.force_unlock, Lock.idBody, hd]
  cases hp : db.public with
  | true =>
    have hres : Lock.lockScope db h body =
        ({ public := false }, { memPublic := false, callbackRegistered := false },
          some (.lockError Lock.lockErrMsg)) := by
      simp [Lock.lockScope, Lock.update_or_create, Lock.force_unlock, hp]
    refine ⟨fun _ => hres, ?_, ?_, ?_, ?_⟩
    · intro m
      rw [hres]
      simp
    · rw [hres]
    · rw [hres]
    · rw [hres]
      exact hid _ _ rfl
  | false =>
    rcases hb : body { public := true } { h with callbackRegistered := true, memPublic := true }
      with ⟨db2, h2, exc⟩
    refine ⟨?_, ?_, ?_, ?_, ?_⟩
    · intro hcon
      exact absurd hcon (by simp)
    · intro m
      cases exc with
      | none => simp [Lock.lockScope, Lock.update_or_create, Lock.force_unlock, hp, hb]
      | some e =>
        cases e <;>
          simp [Lock.lockScope, Lock.update_or_create, Lock.force_unlock, hp, hb]
    · cases exc with
      | none => simp [Lock.lockScope, Lock.update_or_create, Lock.force_unlock, hp, hb]
      | some e =>
        cases e <;>
          simp [Lock.lockScope, Lock.update_or_create, Lock.force_unlock, hp, hb]
    · cases exc with
      | none => simp [Lock.lockScope, Lock.update_or_create, Lock.force_unlock, hp, hb]
      | some e =>
        cases e <;>
          simp [Lock.lockScope, Lock.update_or_create, Lock.force_unlock, hp, hb]
    · cases exc with
      | none =>
        have : (Lock.lockScope db h body).1.public = false := by
          simp [Lock.lockScope, Lock.update_or_create, Lock.force_unlock, hp, hb]
        exact hid _ _ this
      | some e =>
        have : (Lock.lockScope db h body).1.public = false := by
          cases e <;>
            simp [Lock.lockScope, Lock.update_or_create, Lock.force_unlock, hp, hb]
        exact hid _ _ this

/-- Witness for C7: on a locked row the scope raises LockError and leaves
the flag clear; locking the resulting row again succeeds. -/
theorem C7_lock_witness :
    Lock.lockScope { public := true } { memPublic := true, callbackRegistered := true }
        Lock.idBody =
      ({ public := false }, { memPublic := false, callbackRegistered := false },
        some (.lockError Lock.lockErrMsg)) ∧
    (Lock.lockScope
      (Lock.lockScope { public := true } { memPublic := true, callbackRegistered := true }
          Lock.idBody).1
      { memPublic := true, callbackRegistered := true } Lock.idBody).2.2 = none := by
  have h := C7_lock { public := true } { memPublic := true, callbackRegistered := true }
    Lock.idBody
  constructor
  · exact h.1 rfl
  · exact h.2.2.2.2

/-- C1 (amended): on an already-stored node, store_all() raises
ModificationNotAllowed, while store() is a silent no-op that returns the
node — the `if self._to_be_stored` block is skipped entirely, so no error
is raised; in both cases the world, and with it the node's pk and uuid,
are unchanged. -/
theorem C1_store_already_stored (fuel : Nat) (cfg : StoreModel.Config)
    (w : StoreModel.World) (i : Nat) (wt : Bool) (uc : Option Bool)
    (hfuel : 0 < fuel)
    (hstored : (w.node i).toBeStored = false)
    (hstorable : (w.node i).storable = true) :
    StoreModel.store fuel cfg w i wt uc = (w, none) ∧
    ((StoreModel.store fuel cfg w i wt uc).1.node i).pk = (w.node i).pk ∧
    ((StoreModel.store fuel cfg w i wt uc).1.node i).uuid = (w.node i).uuid ∧
    StoreModel.store_all fuel cfg w i wt uc =
      (w, some (.modificationNotAllowed
        ("Node<" ++ (w.node i).pkString ++ "> is already stored"))) := by
  obtain ⟨f, rfl⟩ : ∃ f, fuel = f + 1 := by
    cases fuel with
    | zero => exact absurd hfuel (by simp)
    | succ f => exact ⟨f, rfl⟩
  have hs : StoreModel.store (f + 1) cfg w i wt uc = (w, none) := by
    simp [StoreModel.store, hstorable, hstored]
  refine ⟨hs, by rw [hs], by rw [hs], ?_⟩
  simp [StoreModel.store_all, hstored]

/-- Witness for C1's amended statement at a concrete stored node. -/
theorem C1_store_already_stored_witness :
    StoreModel.store 1 plainCfg storedWorld 0 true none = (storedWorld, none) ∧
    StoreModel.store_all 1 plainCfg storedWorld 0 true none =
      (storedWorld, some (.modificationNotAllowed "Node<0> is already stored")) := by
  have h := C1_store_already_stored 1 plainCfg storedWorld 0 true none
    (by decide)
    (by simp [storedWorld, storedSampleNode, sampleNode])
    (by simp [storedWorld, storedSampleNode, sampleNode])
  refine ⟨h.1, ?_⟩
  have h4 := h.2.2.2
  simpa [storedWorld, storedSampleNode, sampleNode, StoreModel.Node.pkString] using h4

/-- Counterexample for C1: calling store() on the already-stored node does
NOT raise a ModificationNotAllowed-class error — it silently returns the
node unchanged (the exception is raised only by store_all). -/
theorem C1_counterexample :
    StoreModel.store 1 plainCfg storedWorld 0 true none = (storedWorld, none) := by
  simp [StoreModel.store, storedWorld, storedSampleNode, sampleNode]

/-- C3: storing a node that has a cached incoming link from an unstored
source raises ModificationNotAllowed naming the offending link's label and
leaves the world unchanged (nothing is persisted); and the check inspects
exactly the direct parents — it passes precisely when every cached
incoming link's source is stored, regardless of the sources' own
ancestors. -/
theorem C3_unstored_parent (fuel : Nat) (cfg : StoreModel.Config)
    (w : StoreModel.World) (i : Nat) (wt : Bool) (uc : Option Bool)
    (hfuel : 0 < fuel)
    (hstorable : (w.node i).storable = true)
    (hunstored : (w.node i).toBeStored = true) :
    (∀ t, (w.node i).incomingCache.find?
        (fun tr => (w.node tr.source).toBeStored) = some t →
      StoreModel.store fuel cfg w i wt uc =
        (w, some (.modificationNotAllowed (StoreModel.parentsNotStoredMsg t.linkLabel)))) ∧
    (StoreModel.checkAreParentsStored w (w.node i) = none ↔
      ∀ t ∈ (w.node i).incomingCache, (w.node t.source).toBeStored = false) := by
  obtain ⟨f, rfl⟩ : ∃ f, fuel = f + 1 := by
    cases fuel with
    | zero => exact absurd hfuel (by simp)
    | succ f => exact ⟨f, rfl⟩
  constructor
  · intro t ht
    have hc : StoreModel.checkAreParentsStored w (w.node i) =
        some (.modificationNotAllowed (StoreModel.parentsNotStoredMsg t.linkLabel)) := by
      simp [StoreModel.checkAreParentsStored, ht]
    simp [StoreModel.store, hstorable, hunstored, hc]
  · constructor
    · intro hnone t ht
      rcases hfind : (w.node i).incomingCache.find?
          (fun tr => (w.node tr.source).toBeStored) with _ | t'
      · have := List.find?_eq_none.mp hfind t ht
        simpa using this
      · rw [StoreModel.checkAreParentsStored, hfind] at hnone
        simp at hnone
    · intro hall
      have hfind : (w.node i).incomingCache.find?
          (fun tr => (w.node tr.source).toBeStored) = none := by
        rw [List.find?_eq_none]
        intro t ht
        simp [hall t ht]
      simp [StoreModel.checkAreParentsStored, hfind]

/-- Witness for C3 at a concrete world: node 1 holds a cached incoming link
labelled in0 from the unstored node 0; store raises the naming error and
changes nothing. -/
theorem C3_unstored_parent_witness :
    StoreModel.store 1 plainCfg unstoredParentWorld 1 true none =
      (unstoredParentWorld,
        some (.modificationNotAllowed (StoreModel.parentsNotStoredMsg "in0"))) ∧
    (StoreModel.checkAreParentsStored unstoredParentWorld
        (unstoredParentWorld.node 1) = none ↔
      ∀ t ∈ (unstoredParentWorld.node 1).incomingCache,
        (unstoredParentWorld.node t.source).toBeStored = false) := by
  have h := C3_unstored_parent 1 plainCfg unstoredParentWorld 1 true none
    (by decide)
    (by simp [unstoredParentWorld, sampleNode])
    (by simp [unstoredParentWorld, sampleNode])
  refine ⟨?_, h.2⟩
  exact h.1 { source := 0, linkType := .inputLink, linkLabel := "in0" }
    (by simp [unstoredParentWorld, sampleNode])

namespace StoreModel

theorem checkAreParentsStored_updNode (w : World) (i : Nat) (n : Node)
    (hcache : n.incomingCache = (w.node i).incomingCache)
    (hpar : ∀ t ∈ (w.node i).incomingCache,
      (w.node t.source).toBeStored = false ∧ t.source ≠ i) :
    checkAreParentsStored (w.updNode i n) n = none := by
  unfold checkAreParentsStored
  have hfind : n.incomingCache.find?
      (fun t => ((w.updNode i n).node t.source).toBeStored) = none := by
    rw [List.find?_eq_none]
    intro t ht
    rw [hcache] at ht
    obtain ⟨h1, h2⟩ := hpar t ht
    simp [World.updNode, h2, h1]
  rw [hfind]

theorem storeCachedInputLinks_updNode_ok (cfg : Config) (w : World) (i : Nat) (n : Node)
    (hn : n.toBeStored = false)
    (hcache : n.incomingCache = (w.node i).incomingCache)
    (hpar : ∀ t ∈ (w.node i).incomingCache,
      (w.node t.source).toBeStored = false ∧ t.source ≠ i)
    (hlink : cfg.behavior.linkExc = none) :
    storeCachedInputLinks cfg false (w.updNode i n) i =
      ({ (w.updNode i n).updNode i { n with incomingCache := [] } with
         links := w.links ++ n.incomingCache.map (fun t =>
           { source := t.source, target := i, linkType := t.linkType,
             linkLabel := t.linkLabel }) }, none) := by
  have hni : (w.updNode i n).node i = n := by simp [World.updNode]
  have hpar5 := checkAreParentsStored_updNode w i n hcache hpar
  simp only [storeCachedInputLinks, hni, hn, Bool.false_eq_true, if_false, hlink]
  rw [hpar5]
  simp [World.updNode]

theorem storeCachedInputLinks_updNode_err (cfg : Config) (w : World) (i : Nat)
    (n : Node) (e : Exc)
    (hn : n.toBeStored = false)
    (hcache : n.incomingCache = (w.node i).incomingCache)
    (hpar : ∀ t ∈ (w.node i).incomingCache,
      (w.node t.source).toBeStored = false ∧ t.source ≠ i)
    (hlink : cfg.behavior.linkExc = some e) :
    storeCachedInputLinks cfg false (w.updNode i n) i = (w.updNode i n, some e) := by
  have hni : (w.updNode i n).node i = n := by simp [World.updNode]
  have hpar5 := checkAreParentsStored_updNode w i n hcache hpar
  simp [storeCachedInputLinks, hni, hn, hpar5, hlink]

theorem db_store_addErr (cfg : Config) (w : World) (i : Nat) (f : Folder) (e : Exc)
    (wt : Bool)
    (htemp : (w.node i).tempFolder = some f)
    (hadd : cfg.behavior.addExc = some e) :
    (db_store cfg wt w i).2 = some e ∧
    ((db_store cfg wt w i).1.node i).tempFolder = some f ∧
    ((db_store cfg wt w i).1.node i).repoFolder = [] ∧
    ((db_store cfg wt w i).1.node i).toBeStored = (w.node i).toBeStored ∧
    ((db_store cfg wt w i).1.node i).dbCommitted = (w.node i).dbCommitted ∧
    (db_store cfg wt w i).1.links = w.links := by
  simp [db_store, getTempFolder, htemp, hadd, restoreFilesToSandbox, World.updNode]

theorem db_store_linkErr (cfg : Config) (w : World) (i : Nat) (f : Folder) (e : Exc)
    (wt : Bool)
    (htemp : (w.node i).tempFolder = some f)
    (hpar : ∀ t ∈ (w.node i).incomingCache,
      (w.node t.source).toBeStored = false ∧ t.source ≠ i)
    (hadd : cfg.behavior.addExc = none)
    (hlink : cfg.behavior.linkExc = some e) :
    (db_store cfg wt w i).2 = some e ∧
    ((db_store cfg wt w i).1.node i).tempFolder = some f ∧
    ((db_store cfg wt w i).1.node i).repoFolder = [] ∧
    ((db_store cfg wt w i).1.node i).toBeStored = false ∧
    ((db_store cfg wt w i).1.node i).dbCommitted = (w.node i).dbCommitted ∧
    (db_store cfg wt w i).1.links = w.links := by
  have h := storeCachedInputLinks_updNode_err cfg w i
    { w.node i with
        pk := some i,
        dbAttributes := (w.node i).attrsCache,
        attrsCache := [],
        tempFolder := none,
        toBeStored := false,
        repoFolder := f }
    e rfl rfl hpar hlink
  simp only [db_store, getTempFolder, htemp, hadd]
  rw [h]
  simp [World.updNode, restoreFilesToSandbox, getTempFolder]

theorem db_store_commitErr (cfg : Config) (w : World) (i : Nat) (f : Folder) (e : Exc)
    (htemp : (w.node i).tempFolder = some f)
    (hpar : ∀ t ∈ (w.node i).incomingCache,
      (w.node t.source).toBeStored = false ∧ t.source ≠ i)
    (hadd : cfg.behavior.addExc = none)
    (hlink : cfg.behavior.linkExc = none)
    (hcommit : cfg.behavior.commitExc = some e) :
    (db_store cfg true w i).2 = some e ∧
    ((db_store cfg true w i).1.node i).tempFolder = some f ∧
    ((db_store cfg true w i).1.node i).repoFolder = [] ∧
    ((db_store cfg true w i).1.node i).toBeStored = false ∧
    ((db_store cfg true w i).1.node i).dbCommitted = (w.node i).dbCommitted ∧
    (db_store cfg true w i).1.links = w.links := by
  have h := storeCachedInputLinks_updNode_ok cfg w i
    { w.node i with
        pk := some i,
        dbAttributes := (w.node i).attrsCache,
        attrsCache := [],
        tempFolder := none,
        toBeStored := false,
        repoFolder := f }
    rfl rfl hpar hlink
  simp only [db_store, getTempFolder, htemp, hadd]
  rw [h]
  simp [World.updNode, restoreFilesToSandbox, getTempFolder, hcommit]

theorem db_store_success (cfg : Config) (w : World) (i : Nat) (f : Folder)
    (htemp : (w.node i).tempFolder = some f)
    (hpar : ∀ t ∈ (w.node i).incomingCache,
      (w.node t.source).toBeStored = false ∧ t.source ≠ i)
    (hadd : cfg.behavior.addExc = none)
    (hlink : cfg.behavior.linkExc = none)
    (hcommit : cfg.behavior.commitExc = none) :
    (db_store cfg true w i).2 = none ∧
    ((db_store cfg true w i).1.node i).repoFolder = f ∧
    ((db_store cfg true w i).1.node i).tempFolder = none ∧
    ((db_store cfg true w i).1.node i).toBeStored = false ∧
    ((db_store cfg true w i).1.node i).dbAttributes = (w.node i).attrsCache ∧
    ((db_store cfg true w i).1.node i).dbCommitted = true ∧
    ((db_store cfg true w i).1.node i).pk = some i ∧
    (db_store cfg true w i).1.links = w.links ++ (w.node i).incomingCache.map
      (fun t => { source := t.source, target := i, linkType := t.linkType,
                  linkLabel := t.linkLabel }) := by
  have h := storeCachedInputLinks_updNode_ok cfg w i
    { w.node i with
        pk := some i,
        dbAttributes := (w.node i).attrsCache,
        attrsCache := [],
        tempFolder := none,
        toBeStored := false,
        repoFolder := f }
    rfl rfl hpar hlink
  simp only [db_store, getTempFolder, htemp, hadd]
  rw [h]
  simp [World.updNode, Node.set_extra, hcommit]

end StoreModel

/-- C2 (amended): in _db_store the sandbox folder is moved into the
permanent repository location before any database work, and the row is
committed only after every step succeeds — a committed row therefore
always has its backing folder in place; when any step inside the try
(session.add, link persistence, or the commit) fails, the files are moved
back into the sandbox and the original exception is re-raised unchanged,
with nothing committed and any pending link rows discarded — but the node
is left unstored (in-memory `_to_be_stored` still True) only when the
failure precedes the flag flip (session.add): after a link-persistence or
commit failure the in-memory node already reports itself as stored. -/
theorem C2_db_store (cfg : StoreModel.Config) (w : StoreModel.World) (i : Nat)
    (f : StoreModel.Folder)
    (htemp : (w.node i).tempFolder = some f)
    (hpar : ∀ t ∈ (w.node i).incomingCache,
      (w.node t.source).toBeStored = false ∧ t.source ≠ i)
    (hcommitted : (w.node i).dbCommitted = false) :
    (cfg.behavior.addExc = none → cfg.behavior.linkExc = none →
      cfg.behavior.commitExc = none →
      (StoreModel.db_store cfg true w i).2 = none ∧
      ((StoreModel.db_store cfg true w i).1.node i).repoFolder = f ∧
      ((StoreModel.db_store cfg true w i).1.node i).toBeStored = false ∧
      ((StoreModel.db_store cfg true w i).1.node i).dbCommitted = true) ∧
    (∀ e, cfg.behavior.addExc = some e →
      (StoreModel.db_store cfg true w i).2 = some e ∧
      ((StoreModel.db_store cfg true w i).1.node i).tempFolder = some f ∧
      ((StoreModel.db_store cfg true w i).1.node i).repoFolder = [] ∧
      ((StoreModel.db_store cfg true w i).1.node i).toBeStored = (w.node i).toBeStored ∧
      ((StoreModel.db_store cfg true w i).1.node i).dbCommitted = false) ∧
    (∀ e, cfg.behavior.addExc = none → cfg.behavior.linkExc = some e →
      (StoreModel.db_store cfg true w i).2 = some e ∧
      ((StoreModel.db_store cfg true w i).1.node i).tempFolder = some f ∧
      ((StoreModel.db_store cfg true w i).1.node i).repoFolder = [] ∧
      ((StoreModel.db_store cfg true w i).1.node i).toBeStored = false ∧
      ((StoreModel.db_store cfg true w i).1.node i).dbCommitted = false ∧
      (StoreModel.db_store cfg true w i).1.links = w.links) ∧
    (∀ e, cfg.behavior.addExc = none → cfg.behavior.linkExc = none →
      cfg.behavior.commitExc = some e →
      (StoreModel.db_store cfg true w i).2 = some e ∧
      ((StoreModel.db_store cfg true w i).1.node i).tempFolder = some f ∧
      ((StoreModel.db_store cfg true w i).1.node i).repoFolder = [] ∧
      ((StoreModel.db_store cfg true w i).1.node i).toBeStored = false ∧
      ((StoreModel.db_store cfg true w i).1.node i).dbCommitted = false ∧
      (StoreModel.db_store cfg true w i).1.links = w.links) := by
  refine ⟨?_, ?_, ?_, ?_⟩
  · intro ha hl hc
    have h := StoreModel.db_store_success cfg w i f htemp hpar ha hl hc
    exact ⟨h.1, h.2.1, h.2.2.2.1, h.2.2.2.2.2.1⟩
  · intro e ha
    have h := StoreModel.db_store_addErr cfg w i f e true htemp ha
    refine ⟨h.1, h.2.1, h.2.2.1, h.2.2.2.1, ?_⟩
    rw [h.2.2.2.2.1, hcommitted]
  · intro e ha hl
    have h := StoreModel.db_store_linkErr cfg w i f e true htemp hpar ha hl
    refine ⟨h.1, h.2.1, h.2.2.1, h.2.2.2.1, ?_, h.2.2.2.2.2⟩
    rw [h.2.2.2.2.1, hcommitted]
  · intro e ha hl hc
    have h := StoreModel.db_store_commitErr cfg w i f e htemp hpar ha hl hc
    refine ⟨h.1, h.2.1, h.2.2.1, h.2.2.2.1, ?_, h.2.2.2.2.2⟩
    rw [h.2.2.2.2.1, hcommitted]

/-- Witness for C2's amended statement: the benign configuration stores the
concrete node, moving its sandbox file into the repository and committing
the row. -/
theorem C2_db_store_witness :
    (StoreModel.db_store plainCfg true dbStoreWorld 0).2 = none ∧
    ((StoreModel.db_store plainCfg true dbStoreWorld 0).1.node 0).repoFolder =
      [("data.txt", "payload")] ∧
    ((StoreModel.db_store plainCfg true dbStoreWorld 0).1.node 0).toBeStored = false ∧
    ((StoreModel.db_store plainCfg true dbStoreWorld 0).1.node 0).dbCommitted = true := by
  have h := C2_db_store plainCfg dbStoreWorld 0 [("data.txt", "payload")]
    (by simp [dbStoreWorld, sampleNode])
    (by
      intro t ht
      simp only [dbStoreWorld] at ht
      simp at ht
      subst ht
      simp [dbStoreWorld, storedSampleNode, sampleNode])
    (by simp [dbStoreWorld, sampleNode])
  exact h.1 rfl rfl rfl

/-- Counterexample for C2: a failing link insertion re-raises the original
exception and moves the files back into the sandbox, but does NOT leave
the node unstored — the in-memory stored flag (set before link
persistence) remains flipped, so `is_stored` is True afterwards. -/
theorem C2_counterexample :
    (StoreModel.db_store linkFailCfg true dbStoreWorld 0).2 =
      some (.uniquenessError "duplicate link label") ∧
    ((StoreModel.db_store linkFailCfg true dbStoreWorld 0).1.node 0).tempFolder =
      some [("data.txt", "payload")] ∧
    ((StoreModel.db_store linkFailCfg true dbStoreWorld 0).1.node 0).toBeStored
      = false := by
  have h := StoreModel.db_store_linkErr linkFailCfg dbStoreWorld 0
    [("data.txt", "payload")] (.uniquenessError "duplicate link label") true
    (by simp [dbStoreWorld, sampleNode])
    (by
      intro t ht
      simp only [dbStoreWorld] at ht
      simp at ht
      subst ht
      simp [dbStoreWorld, storedSampleNode, sampleNode])
    rfl rfl
  exact ⟨h.1, h.2.1, h.2.2.2.1⟩

namespace StoreModel

theorem head?_filter_filter {α : Type} (l : List α) (p q : α → Bool) :
    ((l.filter p).filter q).head? = l.find? (fun x => p x && q x) := by
  induction l with
  | nil => simp
  | cons hd tl ih =>
    cases hp : p hd with
    | false =>
      have h1 : List.filter p (hd :: tl) = List.filter p tl := by
        simp [List.filter_cons, hp]
      have h2 : List.find? (fun x => p x && q x) (hd :: tl) =
          List.find? (fun x => p x && q x) tl := by
        simp [List.find?_cons, hp]
      rw [h1, h2, ih]
    | true =>
      cases hq : q hd with
      | false =>
        have h1 : List.filter p (hd :: tl) = hd :: List.filter p tl := by
          simp [List.filter_cons, hp]
        have h2 : List.filter q (hd :: List.filter p tl) =
            List.filter q (List.filter p tl) := by
          simp [List.filter_cons, hq]
        have h3 : List.find? (fun x => p x && q x) (hd :: tl) =
            List.find? (fun x => p x && q x) tl := by
          simp [List.find?_cons, hp, hq]
        rw [h1, h2, h3, ih]
      | true =>
        have h1 : List.filter p (hd :: tl) = hd :: List.filter p tl := by
          simp [List.filter_cons, hp]
        have h2 : List.filter q (hd :: List.filter p tl) =
            hd :: List.filter q (List.filter p tl) := by
          simp [List.filter_cons, hq]
        have h3 : List.find? (fun x => p x && q x) (hd :: tl) = some hd := by
          simp [List.find?_cons, hp, hq]
        rw [h1, h2, h3]
        rfl

/-- The candidate predicate of `_iter_all_same_nodes` joined with the
validity hook, as one boolean. -/
def sameNodePred (w : World) (i : Nat) (h : String) (j : Nat) : Bool :=
  ((w.node j).is_stored && (w.node j).nodeType == (w.node i).nodeType &&
    (assocFind (w.node j).extras hashKey == some (some h))) && (w.node j).validCache

theorem getSameNode_eq_find? (cfg : Config) (w : World) (i : Nat) (h : String)
    (hc : (w.node i).cacheable = true)
    (hh : Node.get_hash_default cfg (w.node i) = some h)
    (hne : h ≠ "") :
    getSameNode cfg w i = (List.range w.nextId).find? (sameNodePred w i h) := by
  simp only [getSameNode, iterAllSameNodes, hc, hh, Bool.not_true, Bool.false_eq_true,
    if_false, if_neg hne, head?_filter_filter]
  rfl

theorem getSameNode_none_of_not_cacheable (cfg : Config) (w : World) (i : Nat)
    (hc : (w.node i).cacheable = false) :
    getSameNode cfg w i = none := by
  simp [getSameNode, iterAllSameNodes, hc]

theorem getSameNode_none_of_no_hash (cfg : Config) (w : World) (i : Nat)
    (hh : Node.get_hash_default cfg (w.node i) = none) :
    getSameNode cfg w i = none := by
  cases hc : (w.node i).cacheable <;>
    simp [getSameNode, iterAllSameNodes, hc, hh]

theorem getSameNode_sound (cfg : Config) (w : World) (i j : Nat)
    (hj : getSameNode cfg w i = some j) :
    (w.node j).is_stored = true ∧ (w.node j).nodeType = (w.node i).nodeType ∧
    (w.node j).validCache = true ∧ j < w.nextId ∧
    (∃ h, Node.get_hash_default cfg (w.node i) = some h ∧
      assocFind (w.node j).extras hashKey = some (some h)) := by
  cases hc : (w.node i).cacheable with
  | false => rw [getSameNode_none_of_not_cacheable cfg w i hc] at hj; cases hj
  | true =>
    rcases hh : Node.get_hash_default cfg (w.node i) with _ | h
    · rw [getSameNode_none_of_no_hash cfg w i hh] at hj; cases hj
    · by_cases hne : h = ""
      · subst hne
        simp [getSameNode, iterAllSameNodes, hc, hh] at hj
      · rw [getSameNode_eq_find? cfg w i h hc hh hne] at hj
        have hpred := List.find?_some hj
        have hmem := List.mem_of_find?_eq_some hj
        unfold sameNodePred at hpred
        simp only [Bool.and_eq_true, beq_iff_eq] at hpred
        exact ⟨hpred.1.1.1, hpred.1.1.2, hpred.2, by simpa using hmem,
          ⟨h, rfl, hpred.1.2⟩⟩

end StoreModel

/-- C5: _get_same_node returns the first stored node (in query order) whose
`_aiida_hash` extra equals the node's own hash, restricted to exactly the
same concrete class and accepted by the `_is_valid_cache` hook; it returns
None when the class is not cacheable, when get_hash yields no (truthy)
hash, or when no candidate passes — and any returned match is stored, of
the same concrete class, and valid. -/
theorem C5_get_same_node (cfg : StoreModel.Config) (w : StoreModel.World) (i : Nat) :
    ((w.node i).cacheable = false → StoreModel.getSameNode cfg w i = none) ∧
    (StoreModel.Node.get_hash_default cfg (w.node i) = none →
      StoreModel.getSameNode cfg w i = none) ∧
    (∀ h, (w.node i).cacheable = true →
      StoreModel.Node.get_hash_default cfg (w.node i) = some h → h ≠ "" →
      StoreModel.getSameNode cfg w i =
        (List.range w.nextId).find? (StoreModel.sameNodePred w i h)) ∧
    (∀ j, StoreModel.getSameNode cfg w i = some j →
      (w.node j).is_stored = true ∧ (w.node j).nodeType = (w.node i).nodeType ∧
      (w.node j).validCache = true) := by
  refine ⟨StoreModel.getSameNode_none_of_not_cacheable cfg w i,
    StoreModel.getSameNode_none_of_no_hash cfg w i,
    fun h hc hh hne => StoreModel.getSameNode_eq_find? cfg w i h hc hh hne,
    fun j hj => ?_⟩
  have hs := StoreModel.getSameNode_sound cfg w i j hj
  exact ⟨hs.1, hs.2.1, hs.2.2.1⟩

/-- Witness for C5: in the concrete caching world, the unstored node 1
finds the stored node 0 — same class, matching hash extra, valid cache —
as its first (and only) candidate. -/
theorem C5_get_same_node_witness :
    StoreModel.getSameNode plainCfg cacheWorld 1 = some 0 ∧
    (cacheWorld.node 0).is_stored = true ∧
    (cacheWorld.node 0).nodeType = (cacheWorld.node 1).nodeType := by
  have h := C5_get_same_node plainCfg cacheWorld 1
  have heq := h.2.2.1 "h0"
    (by simp [cacheWorld, sampleNode])
    (by simp [StoreModel.Node.get_hash_default, StoreModel.Node.get_hash, plainCfg])
    (by simp)
  have hfind : (List.range cacheWorld.nextId).find?
      (StoreModel.sameNodePred cacheWorld 1 "h0") = some 0 := by
    have h3 : cacheWorld.nextId = 3 := rfl
    rw [h3]
    rw [List.range_succ, List.range_succ, List.range_succ, List.range_zero]
    simp [StoreModel.sameNodePred, cacheWorld, cacheSourceNode, cacheOutputNode,
      sampleNode, StoreModel.Node.is_stored, StoreModel.hashKey, assocFind]
  refine ⟨heq.trans hfind, ?_, ?_⟩ <;>
    simp [cacheWorld, cacheSourceNode, sampleNode, StoreModel.Node.is_stored]

namespace StoreModel

theorem foldCopy_eq (l : Attrs) (n : Node) :
    l.foldl (fun m kv => if kv.1 ≠ SEALED_KEY then m.setAttr kv.1 kv.2 else m) n =
    { n with attrsCache := (l.foldl
        (fun a kv => if kv.1 ≠ SEALED_KEY then assocSet a kv.1 kv.2 else a)
        n.attrsCache) } := by
  induction l generalizing n with
  | nil => rfl
  | cons hd tl ih =>
    simp only [List.foldl_cons]
    by_cases h : hd.1 ≠ SEALED_KEY
    · rw [if_pos h, if_pos h, ih]
      rfl
    · rw [if_neg h, if_neg h, ih]

theorem getOutgoing_updNode (w : World) (i : Nat) (n : Node) (j : Nat) (lt : LinkType) :
    getOutgoing (w.updNode i n) j lt = getOutgoing w j lt := by
  simp [getOutgoing, World.updNode]

/-- The ValueError message of the RETURN-link rejection. -/
def returnRejectMsg : String := "Cannot use cache from nodes with RETURN links."

theorem storeFromCache_reject (f : Nat) (cfg : Config) (w : World) (i cacheId : Nat)
    (wt : Bool)
    (htype : (w.node i).nodeType = (w.node cacheId).nodeType)
    (hret : getOutgoing w cacheId .returnLink ≠ []) :
    storeFromCache f cfg w i cacheId wt =
      (w.updNode i (cacheCopiedNode w i cacheId), some (.valueError returnRejectMsg)) := by
  simp only [storeFromCache, if_neg (not_not_intro htype)]
  rw [foldCopy_eq]
  rw [if_pos]
  · simp [cacheCopiedNode, Node.setAttr, returnRejectMsg]
  · rw [getOutgoing_updNode]
    exact hret

end StoreModel

/-- C6: when store() takes the cache-hit path and the matched cache-source
node has any outgoing RETURN-typed link, the match is rejected with a
ValueError raised before the node is stored and before the
`_aiida_cached_from` extra is written — so the node is never recorded as
cached from a node with RETURN-typed outgoing links (it stays unstored,
with is_created_from_cache False). -/
theorem C6_return_link_rejected (f : Nat) (cfg : StoreModel.Config)
    (w : StoreModel.World) (i cacheId : Nat) (wt : Bool) (uc : Option Bool)
    (hstorable : (w.node i).storable = true)
    (hunstored : (w.node i).toBeStored = true)
    (hpar : StoreModel.checkAreParentsStored w (w.node i) = none)
    (hugc : uc.getD (cfg.useCacheFor (w.node i).nodeType) = true)
    (hsame : StoreModel.getSameNode cfg w i = some cacheId)
    (hret : StoreModel.getOutgoing w cacheId .returnLink ≠ [])
    (hnoextra : assocFind (w.node i).extras StoreModel.cachedFromKey = none) :
    StoreModel.store (f + 1) cfg w i wt uc =
      (w.updNode i (StoreModel.cacheCopiedNode w i cacheId),
        some (.valueError StoreModel.returnRejectMsg)) ∧
    (((w.updNode i (StoreModel.cacheCopiedNode w i cacheId)).node i).toBeStored = true ∧
     ((w.updNode i (StoreModel.cacheCopiedNode w i cacheId)).node i).is_created_from_cache
        = false ∧
     assocFind ((w.updNode i (StoreModel.cacheCopiedNode w i cacheId)).node i).extras
        StoreModel.cachedFromKey = none) := by
  have htype := (StoreModel.getSameNode_sound cfg w i cacheId hsame).2.1
  have hsfc := StoreModel.storeFromCache_reject f cfg w i cacheId wt htype.symm hret
  constructor
  · rcases uc with _ | b
    · have hc : cfg.useCacheFor (w.node i).nodeType = true := by
        simpa [Option.getD] using hugc
      simp only [StoreModel.store, hstorable, hunstored, hpar, Bool.not_true,
        Bool.false_eq_true, if_false, Option.getD, hc, if_true, hsame]
      rw [hsfc]
    · have hb : b = true := by simpa [Option.getD] using hugc
      subst hb
      simp only [StoreModel.store, hstorable, hunstored, hpar, Bool.not_true,
        Bool.false_eq_true, if_false, Option.getD, if_true, hsame]
      rw [hsfc]
  · refine ⟨?_, ?_, ?_⟩ <;>
      simp [StoreModel.World.updNode, StoreModel.cacheCopiedNode, hunstored,
        StoreModel.Node.is_created_from_cache, StoreModel.Node.get_cache_source,
        StoreModel.Node.get_extra, hnoextra]

/-- Witness for C6 at the concrete world with a RETURN link on the cache
source: the store is rejected with the ValueError and node 1 stays
unstored with no cache marker. -/
theorem C6_return_link_rejected_witness :
    StoreModel.store 2 plainCfg returnLinkWorld 1 true (some true) =
      (returnLinkWorld.updNode 1 (StoreModel.cacheCopiedNode returnLinkWorld 1 0),
        some (.valueError StoreModel.returnRejectMsg)) ∧
    ((returnLinkWorld.updNode 1
        (StoreModel.cacheCopiedNode returnLinkWorld 1 0)).node 1).toBeStored = true := by
  have hsame : StoreModel.getSameNode plainCfg returnLinkWorld 1 = some 0 := by
    have heq := StoreModel.getSameNode_eq_find? plainCfg returnLinkWorld 1 "h0"
      (by simp [returnLinkWorld, cacheWorld, sampleNode])
      (by simp [StoreModel.Node.get_hash_default, StoreModel.Node.get_hash, plainCfg])
      (by simp)
    rw [heq]
    have h3 : returnLinkWorld.nextId = 3 := rfl
    rw [h3]
    rw [List.range_succ, List.range_succ, List.range_succ, List.range_zero]
    simp [StoreModel.sameNodePred, returnLinkWorld, cacheWorld, cacheSourceNode,
      cacheOutputNode, sampleNode, StoreModel.Node.is_stored, StoreModel.hashKey, assocFind]
  have h := C6_return_link_rejected 1 plainCfg returnLinkWorld 1 0 true (some true)
    (by simp [returnLinkWorld, cacheWorld, sampleNode])
    (by simp [returnLinkWorld, cacheWorld, sampleNode])
    (by simp [StoreModel.checkAreParentsStored, returnLinkWorld, cacheWorld, sampleNode])
    (by simp)
    hsame
    (by simp [StoreModel.getOutgoing, returnLinkWorld, cacheWorld])
    (by simp [returnLinkWorld, cacheWorld, sampleNode, assocFind])
  exact ⟨h.1, h.2.1⟩

namespace StoreModel

theorem autogroupStep_none (cfg : Config) (w : World) (i : Nat)
    (hag : cfg.currentAutogroup = none) :
    autogroupStep cfg w i = (w, none) := by
  simp [autogroupStep, hag]

theorem store_uncached (g : Nat) (cfg : Config) (w : World) (i : Nat) (wt : Bool)
    (uc : Option Bool)
    (hstorable : (w.node i).storable = true)
    (hunstored : (w.node i).toBeStored = true)
    (hpar : checkAreParentsStored w (w.node i) = none)
    (hucf : uc.getD (cfg.useCacheFor (w.node i).nodeType) = false)
    (hag : cfg.currentAutogroup = none) :
    store (g + 1) cfg w i wt uc = db_store cfg wt w i := by
  have hfinish : (match db_store cfg wt w i with
      | (w1, some e) => (w1, some e)
      | (w1, none) => autogroupStep cfg w1 i) = db_store cfg wt w i := by
    rcases hdb : db_store cfg wt w i with ⟨w1, oe⟩
    cases oe with
    | none => simp [autogroupStep_none cfg w1 i hag]
    | some e => simp
  rcases uc with _ | b
  · have hcf : cfg.useCacheFor (w.node i).nodeType = false := by
      simpa [Option.getD] using hucf
    simp only [store, hstorable, hunstored, hpar, Bool.not_true, Bool.false_eq_true,
      if_false, Option.getD, hcf]
    exact hfinish
  · have hb : b = false := by simpa [Option.getD] using hucf
    subst hb
    simp only [store, hstorable, hunstored, hpar, Bool.not_true, Bool.false_eq_true,
      if_false, Option.getD]
    exact hfinish

theorem db_store_full (cfg : Config) (w : World) (i : Nat) (f : Folder)
    (htemp : (w.node i).tempFolder = some f)
    (hpar : ∀ t ∈ (w.node i).incomingCache,
      (w.node t.source).toBeStored = false ∧ t.source ≠ i)
    (ha : cfg.behavior.addExc = none)
    (hl : cfg.behavior.linkExc = none)
    (hc : cfg.behavior.commitExc = none) :
    (db_store cfg true w i).2 = none ∧
    (db_store cfg true w i).1.node i = dbStoredNodeN cfg (w.node i) f i ∧
    (∀ j, j ≠ i → (db_store cfg true w i).1.node j = w.node j) ∧
    (db_store cfg true w i).1.links = w.links ++ (w.node i).incomingCache.map
      (fun t => { source := t.source, target := i, linkType := t.linkType,
                  linkLabel := t.linkLabel }) ∧
    (db_store cfg true w i).1.nextId = w.nextId ∧
    (db_store cfg true w i).1.groups = w.groups := by
  have h := storeCachedInputLinks_updNode_ok cfg w i
    { w.node i with
        pk := some i,
        dbAttributes := (w.node i).attrsCache,
        attrsCache := [],
        tempFolder := none,
        toBeStored := false,
        repoFolder := f }
    rfl rfl hpar hl
  simp only [db_store, getTempFolder, htemp, ha]
  rw [h]
  refine ⟨?_, ?_, ?_, ?_, ?_, ?_⟩
  · simp [World.updNode, hc]
  · simp [World.updNode, Node.set_extra, hc, dbStoredNodeN, dbStoredNodePreN]
  · intro j hj
    simp [World.updNode, Node.set_extra, hc, hj]
  · simp [World.updNode, hc]
  · simp [World.updNode, hc]
  · simp [World.updNode, hc]

theorem store_fresh_clone (g : Nat) (cfg : Config) (v : World) (d : Nat)
    (orig : Node) (selfId : Nat) (lbl : String)
    (hag : cfg.currentAutogroup = none)
    (ha : cfg.behavior.addExc = none)
    (hl : cfg.behavior.linkExc = none)
    (hc : cfg.behavior.commitExc = none)
    (hnode : v.node d = (orig.clone d).add_incoming selfId .createLink lbl)
    (hsrc : (v.node selfId).toBeStored = false)
    (hsd : selfId ≠ d)
    (hstorable : orig.storable = true)
    (hnc : cfg.useCacheFor orig.nodeType = false) :
    (store (g + 1) cfg v d true none).2 = none ∧
    (store (g + 1) cfg v d true none).1.node d =
      storedCloneNode cfg orig selfId lbl d ∧
    (∀ j, j ≠ d → (store (g + 1) cfg v d true none).1.node j = v.node j) ∧
    (store (g + 1) cfg v d true none).1.links = v.links ++
      [{ source := selfId, target := d, linkType := .createLink, linkLabel := lbl }] ∧
    (store (g + 1) cfg v d true none).1.nextId = v.nextId ∧
    (store (g + 1) cfg v d true none).1.groups = v.groups := by
  have hstorable' : (v.node d).storable = true := by
    simp [hnode, Node.clone, Node.add_incoming, hstorable]
  have hunstored' : (v.node d).toBeStored = true := by
    simp [hnode, Node.clone, Node.add_incoming]
  have hpar' : checkAreParentsStored v (v.node d) = none := by
    simp [checkAreParentsStored, hnode, Node.clone, Node.add_incoming,
      List.find?_cons, hsrc]
  have hucf' : (none : Option Bool).getD (cfg.useCacheFor (v.node d).nodeType)
      = false := by
    simp [Option.getD, hnode, Node.clone, Node.add_incoming, hnc]
  have hst := store_uncached g cfg v d true none hstorable' hunstored' hpar' hucf' hag
  have htemp' : (v.node d).tempFolder = some orig.folderContents := by
    simp [hnode, Node.clone, Node.add_incoming]
  have hpar2 : ∀ t ∈ (v.node d).incomingCache,
      (v.node t.source).toBeStored = false ∧ t.source ≠ d := by
    intro t ht
    rw [hnode] at ht
    simp [Node.clone, Node.add_incoming] at ht
    subst ht
    exact ⟨hsrc, hsd⟩
  have hdb := db_store_full cfg v d orig.folderContents htemp' hpar2 ha hl hc
  rw [hst]
  refine ⟨hdb.1, ?_, hdb.2.2.1, ?_, hdb.2.2.2.2.1, hdb.2.2.2.2.2⟩
  · rw [hdb.2.1, hnode]
    rfl
  · rw [hdb.2.2.2.1, hnode]
    simp [Node.clone, Node.add_incoming]

theorem cloneOutputs_spec (g : Nat) (cfg : Config) (i : Nat)
    (hag : cfg.currentAutogroup = none)
    (ha : cfg.behavior.addExc = none)
    (hl : cfg.behavior.linkExc = none)
    (hc : cfg.behavior.commitExc = none) :
    ∀ (outs : List StoredLink) (w : World),
      i < w.nextId →
      (w.node i).toBeStored = false →
      (∀ e ∈ outs, e.target < w.nextId ∧ e.target ≠ i ∧
        (w.node e.target).storable = true ∧
        cfg.useCacheFor (w.node e.target).nodeType = false) →
      (cloneOutputs (g + 1) cfg w i outs).2 = none ∧
      (cloneOutputs (g + 1) cfg w i outs).1.nextId = w.nextId + outs.length ∧
      (∀ j, j < w.nextId → (cloneOutputs (g + 1) cfg w i outs).1.node j = w.node j) ∧
      (cloneOutputs (g + 1) cfg w i outs).1.groups = w.groups ∧
      (∃ extra, (cloneOutputs (g + 1) cfg w i outs).1.links = w.links ++ extra) ∧
      (∀ k (hk : k < outs.length),
        (cloneOutputs (g + 1) cfg w i outs).1.node (w.nextId + k) =
          storedCloneNode cfg (w.node (outs.get ⟨k, hk⟩).target) i
            (outs.get ⟨k, hk⟩).linkLabel (w.nextId + k) ∧
        ({ source := i, target := w.nextId + k, linkType := .createLink,
           linkLabel := (outs.get ⟨k, hk⟩).linkLabel } : StoredLink) ∈
          (cloneOutputs (g + 1) cfg w i outs).1.links) := by
  intro outs
  induction outs with
  | nil =>
    intro w hi histored houts
    refine ⟨?_, ?_, ?_, ?_, ⟨[], ?_⟩, ?_⟩ <;> simp [cloneOutputs]
  | cons e rest ih =>
    intro w hi histored houts
    obtain ⟨ht, hti, hstor, hnc⟩ := houts e (List.mem_cons_self e rest)
    simp only [cloneOutputs]
    have hstep := store_fresh_clone g cfg
      ({ w.updNode w.nextId
          (((w.node e.target).clone w.nextId).add_incoming i .createLink e.linkLabel)
        with nextId := w.nextId + 1 })
      w.nextId (w.node e.target) i e.linkLabel hag ha hl hc
      (by simp [World.updNode])
      (by simp [World.updNode, Nat.ne_of_lt hi, histored])
      (Nat.ne_of_lt hi)
      hstor hnc
    rcases hres : store (g + 1) cfg
      ({ w.updNode w.nextId
          (((w.node e.target).clone w.nextId).add_incoming i .createLink e.linkLabel)
        with nextId := w.nextId + 1 })
      w.nextId true none with ⟨w2, oe⟩
    rw [hres] at hstep
    simp only at hstep
    obtain ⟨hoe, hnodeD, hframe, hlinks, hnext, hgroups⟩ := hstep
    subst hoe
    simp only [World.updNode] at hframe hlinks hnext hgroups hnodeD
    -- facts about w2 relative to w
    have hw2next : w2.nextId = w.nextId + 1 := hnext
    have hw2node : ∀ j, j ≠ w.nextId → w2.node j = w.node j := by
      intro j hj
      rw [hframe j hj]
      simp [hj]
    have hw2links : w2.links = w.links ++
        [{ source := i, target := w.nextId, linkType := .createLink,
           linkLabel := e.linkLabel }] := hlinks
    have hw2groups : w2.groups = w.groups := hgroups
    have hih := ih w2
      (by rw [hw2next]; omega)
      (by rw [hw2node i (Nat.ne_of_lt hi)]; exact histored)
      (by
        intro e' he'
        obtain ⟨ht', hti', hstor', hnc'⟩ := houts e' (List.mem_cons_of_mem e he')
        have hne : e'.target ≠ w.nextId := Nat.ne_of_lt ht'
        rw [hw2node e'.target hne]
        exact ⟨by omega, hti', hstor', hnc'⟩)
    obtain ⟨hihe, hihnext, hihframe, hihgroups, ⟨extra2, hihlinks⟩, hihk⟩ := hih
    refine ⟨hihe, ?_, ?_, ?_, ?_, ?_⟩
    · rw [hihnext, hw2next]
      simp [List.length_cons]
      omega
    · intro j hj
      rw [hihframe j (by omega), hw2node j (Nat.ne_of_lt hj)]
    · rw [hihgroups, hw2groups]
    · refine ⟨[{ source := i, target := w.nextId, linkType := .createLink, linkLabel := e.linkLabel }] ++ extra2, ?_⟩
      rw [hihlinks, hw2links, List.append_assoc]
    · intro k hk
      cases k with
      | zero =>
        constructor
        · have hfr : (cloneOutputs (g + 1) cfg w2 i rest).1.node (w.nextId + 0) =
              w2.node (w.nextId + 0) := by
            apply hihframe
            omega
          rw [hfr]
          simpa using hnodeD
        · rw [hihlinks, hw2links]
          simp
      | succ k' =>
        have hk' : k' < rest.length := by simpa using hk
        have hkk := hihk k' hk'
        have hidx : w2.nextId + k' = w.nextId + (k' + 1) := by omega
        have htarget : (rest.get ⟨k', hk'⟩).target ≠ w.nextId := by
          have := houts (rest.get ⟨k', hk'⟩)
            (List.mem_cons_of_mem e (rest.get_mem k' hk'))
          exact Nat.ne_of_lt this.1
        constructor
        · have := hkk.1
          rw [hidx, hw2node _ htarget] at this
          simpa using this
        · have := hkk.2
          rw [hidx] at this
          simpa using this

theorem storeFromCache_unfold (f : Nat) (cfg : Config) (w : World) (i cacheId : Nat)
    (wt : Bool)
    (htype : (w.node i).nodeType = (w.node cacheId).nodeType)
    (hnoret : getOutgoing w cacheId .returnLink = []) :
    storeFromCache f cfg w i cacheId wt =
      (match store f cfg (w.updNode i (cacheCopiedNode w i cacheId)) i wt (some false) with
       | (w4, some e) => (w4, some e)
       | (w4, none) =>
         (w4.updNode i ((w4.node i).set_extra cachedFromKey (some (w.node cacheId).uuid)),
           none)) := by
  simp only [storeFromCache, if_neg (not_not_intro htype)]
  rw [foldCopy_eq]
  rw [if_neg]
  · simp [cacheCopiedNode]
  · rw [getOutgoing_updNode]
    simp [hnoret]

theorem storeFromCache_success (g : Nat) (cfg : Config) (w : World) (i cacheId : Nat)
    (hstorable : (w.node i).storable = true)
    (hunstored : (w.node i).toBeStored = true)
    (hinc : (w.node i).incomingCache = [])
    (htype : (w.node i).nodeType = (w.node cacheId).nodeType)
    (hnoret : getOutgoing w cacheId .returnLink = [])
    (hag : cfg.currentAutogroup = none)
    (ha : cfg.behavior.addExc = none)
    (hl : cfg.behavior.linkExc = none)
    (hc : cfg.behavior.commitExc = none) :
    (storeFromCache (g + 1) cfg w i cacheId true).2 = none ∧
    (storeFromCache (g + 1) cfg w i cacheId true).1.node i =
      (dbStoredNodeN cfg (cacheCopiedNode w i cacheId)
        ((w.node cacheId).folderContents) i).set_extra cachedFromKey
        (some (w.node cacheId).uuid) ∧
    (∀ j, j ≠ i → (storeFromCache (g + 1) cfg w i cacheId true).1.node j = w.node j) ∧
    (storeFromCache (g + 1) cfg w i cacheId true).1.links = w.links ∧
    (storeFromCache (g + 1) cfg w i cacheId true).1.nextId = w.nextId ∧
    (storeFromCache (g + 1) cfg w i cacheId true).1.groups = w.groups := by
  have hni : (w.updNode i (cacheCopiedNode w i cacheId)).node i =
      cacheCopiedNode w i cacheId := by
    simp [World.updNode]
  have hst := store_uncached g cfg (w.updNode i (cacheCopiedNode w i cacheId)) i true
    (some false)
    (by rw [hni]; simpa [cacheCopiedNode] using hstorable)
    (by rw [hni]; simpa [cacheCopiedNode] using hunstored)
    (by
      rw [hni]
      simp [checkAreParentsStored, cacheCopiedNode, hinc])
    (by simp [Option.getD])
    hag
  have hdb := db_store_full cfg (w.updNode i (cacheCopiedNode w i cacheId)) i
    ((w.node cacheId).folderContents)
    (by rw [hni]; simp [cacheCopiedNode])
    (by
      intro t ht
      rw [hni] at ht
      simp [cacheCopiedNode, hinc] at ht)
    ha hl hc
  rw [storeFromCache_unfold (g + 1) cfg w i cacheId true htype hnoret]
  rcases hres : store (g + 1) cfg (w.updNode i (cacheCopiedNode w i cacheId)) i true
    (some false) with ⟨w4, oe⟩
  rw [hres] at hst
  have hdb2 := hdb
  rw [← hst] at hdb2
  simp only at hdb2
  obtain ⟨hoe, hnodei, hframe, hlinks, hnext, hgroups⟩ := hdb2
  subst hoe
  refine ⟨by simp, ?_, ?_, ?_, ?_, ?_⟩
  · simp only [World.updNode]
    simp [hnodei, hni]
  · intro j hj
    have h1 := hframe j hj
    simp [World.updNode, hj] at h1
    simp [World.updNode, hj, h1]
  · simp only [World.updNode]
    rw [hlinks, hni]
    simp [World.updNode, cacheCopiedNode, hinc]
  · simpa [World.updNode] using hnext
  · simpa [World.updNode] using hgroups

theorem assocSet_append {α : Type} (a : List (String × α)) (k : String) (v : α)
    (h : assocFind a k = none) : assocSet a k v = a ++ [(k, v)] := by
  induction a with
  | nil => simp [assocSet]
  | cons hd tl ih =>
    by_cases hk : hd.1 = k
    · simp [assocFind, hk] at h
    · simp only [assocFind, if_neg hk] at h
      simp [assocSet, hk, ih h]

theorem assocFind_append_left {α : Type} (a b : List (String × α)) (k : String)
    (h : assocFind a k = none) : assocFind (a ++ b) k = assocFind b k := by
  induction a with
  | nil => simp
  | cons hd tl ih =>
    by_cases hk : hd.1 = k
    · simp [assocFind, hk] at h
    · simp only [assocFind, if_neg hk] at h
      simp only [List.cons_append, assocFind, if_neg hk]
      exact ih h

theorem foldAssoc_append (l : Attrs) :
    ∀ (a : Attrs), (∀ kv ∈ l, assocFind a kv.1 = none) →
    ((l.map Prod.fst).Nodup) →
    l.foldl (fun acc kv => if kv.1 ≠ SEALED_KEY then assocSet acc kv.1 kv.2 else acc) a =
      a ++ l.filter (fun kv => !(kv.1 == SEALED_KEY)) := by
  induction l with
  | nil => intro a _ _; simp
  | cons hd tl ih =>
    intro a hdisj hnd
    have hhd : assocFind a hd.1 = none := hdisj hd (List.mem_cons_self hd tl)
    have hnd' : ((tl.map Prod.fst)).Nodup := by
      simp only [List.map_cons, List.nodup_cons] at hnd
      exact hnd.2
    have hhdtl : hd.1 ∉ tl.map Prod.fst := by
      simp only [List.map_cons, List.nodup_cons] at hnd
      exact hnd.1
    simp only [List.foldl_cons]
    by_cases hs : hd.1 ≠ SEALED_KEY
    · rw [if_pos hs, assocSet_append a hd.1 hd.2 hhd]
      rw [ih (a ++ [(hd.1, hd.2)]) ?hdisj hnd']
      · rw [List.filter_cons_of_pos (by simpa using hs), List.append_assoc]
        rfl
      case hdisj =>
        intro kv hkv
        rw [assocFind_append_left a [(hd.1, hd.2)] kv.1 (hdisj kv (List.mem_cons_of_mem hd hkv))]
        have : hd.1 ≠ kv.1 := by
          intro hcon
          exact hhdtl (hcon ▸ List.mem_map_of_mem Prod.fst hkv)
        simp [assocFind, this]
    · rw [if_neg hs]
      rw [ih a (fun kv hkv => hdisj kv (List.mem_cons_of_mem hd hkv)) hnd']
      rw [List.filter_cons_of_neg (by simpa using hs)]

end StoreModel

/-- C4: on a cache hit during store(), the node copies the matched node's
label, description, all attributes except the sealed key, and repository
folder contents; it then stores itself with caching disabled and records
the `_aiida_cached_from` extra equal to the matched node's uuid — so
is_created_from_cache is True and get_cache_source returns that uuid — and
every CREATE-linked output of the matched node is cloned, linked to the
new node by a CREATE link with the same link label, and stored. -/
theorem C4_cache_hit_store (g : Nat) (cfg : StoreModel.Config) (w : StoreModel.World)
    (i cacheId : Nat)
    (hstorable : (w.node i).storable = true)
    (hunstored : (w.node i).toBeStored = true)
    (hinc : (w.node i).incomingCache = [])
    (hattrs : (w.node i).attrsCache = [])
    (hi : i < w.nextId)
    (hsame : StoreModel.getSameNode cfg w i = some cacheId)
    (hnoret : StoreModel.getOutgoing w cacheId .returnLink = [])
    (hag : cfg.currentAutogroup = none)
    (ha : cfg.behavior.addExc = none)
    (hl : cfg.behavior.linkExc = none)
    (hcm : cfg.behavior.commitExc = none)
    (houts : ∀ e ∈ StoreModel.getOutgoing w cacheId .createLink,
      e.target < w.nextId ∧ e.target ≠ i ∧ (w.node e.target).storable = true ∧
      cfg.useCacheFor (w.node e.target).nodeType = false)
    (hnodup : (((w.node cacheId).iterattrs).map Prod.fst).Nodup) :
    (StoreModel.store (g + 1 + 1) cfg w i true (some true)).2 = none ∧
    ((StoreModel.store (g + 1 + 1) cfg w i true (some true)).1.node i).label =
      (w.node cacheId).label ∧
    ((StoreModel.store (g + 1 + 1) cfg w i true (some true)).1.node i).description =
      (w.node cacheId).description ∧
    ((StoreModel.store (g + 1 + 1) cfg w i true (some true)).1.node i).dbAttributes =
      (w.node cacheId).iterattrs.filter (fun kv => !(kv.1 == StoreModel.SEALED_KEY)) ∧
    ((StoreModel.store (g + 1 + 1) cfg w i true (some true)).1.node i).repoFolder =
      (w.node cacheId).folderContents ∧
    ((StoreModel.store (g + 1 + 1) cfg w i true (some true)).1.node i).toBeStored =
      false ∧
    ((StoreModel.store (g + 1 + 1) cfg w i true (some true)).1.node i).get_cache_source =
      some (w.node cacheId).uuid ∧
    ((StoreModel.store (g + 1 + 1) cfg w i true
      (some true)).1.node i).is_created_from_cache = true ∧
    (∀ k (hk : k < (StoreModel.getOutgoing w cacheId .createLink).length),
      (StoreModel.store (g + 1 + 1) cfg w i true (some true)).1.node (w.nextId + k) =
        StoreModel.storedCloneNode cfg
          (w.node ((StoreModel.getOutgoing w cacheId .createLink).get ⟨k, hk⟩).target) i
          ((StoreModel.getOutgoing w cacheId .createLink).get ⟨k, hk⟩).linkLabel
          (w.nextId + k) ∧
      ({ source := i, target := w.nextId + k, linkType := .createLink, linkLabel := ((StoreModel.getOutgoing w cacheId .createLink).get ⟨k, hk⟩).linkLabel } : StoreModel.StoredLink) ∈
        (StoreModel.store (g + 1 + 1) cfg w i true (some true)).1.links) ∧
    (∀ (orig : StoreModel.Node) (selfId : Nat) (lbl : String) (d : Nat),
      (StoreModel.storedCloneNode cfg orig selfId lbl d).toBeStored = false ∧
      (StoreModel.storedCloneNode cfg orig selfId lbl d).label = orig.label ∧
      (StoreModel.storedCloneNode cfg orig selfId lbl d).dbAttributes = orig.get_attrs ∧
      (StoreModel.storedCloneNode cfg orig selfId lbl d).repoFolder =
        orig.folderContents) := by
  have hsound := StoreModel.getSameNode_sound cfg w i cacheId hsame
  have htype : (w.node i).nodeType = (w.node cacheId).nodeType := hsound.2.1.symm
  have hpar0 : StoreModel.checkAreParentsStored w (w.node i) = none := by
    simp [StoreModel.checkAreParentsStored, hinc]
  have hsfc := StoreModel.storeFromCache_success g cfg w i cacheId hstorable hunstored
    hinc htype hnoret hag ha hl hcm
  have hstoreeq : StoreModel.store (g + 1 + 1) cfg w i true (some true) =
      (match StoreModel.storeFromCache (g + 1) cfg w i cacheId true with
       | (w1, some e) => (w1, some e)
       | (w1, none) =>
         match StoreModel.addOutputsFromCache (g + 1) cfg w1 i cacheId with
         | (w2, some e) => (w2, some e)
         | (w2, none) => StoreModel.autogroupStep cfg w2 i) := by
    simp only [StoreModel.store, hstorable, hunstored, hpar0, Bool.not_true,
      Bool.false_eq_true, if_false, Option.getD, if_true, hsame]
  rcases hres1 : StoreModel.storeFromCache (g + 1) cfg w i cacheId true with ⟨w1, oe1⟩
  rw [hres1] at hsfc
  simp only at hsfc
  obtain ⟨hoe1, hnode1, hframe1, hlinks1, hnext1, hgroups1⟩ := hsfc
  subst hoe1
  have houtg : StoreModel.getOutgoing w1 cacheId .createLink =
      StoreModel.getOutgoing w cacheId .createLink := by
    simp [StoreModel.getOutgoing, hlinks1]
  have histored1 : (w1.node i).toBeStored = false := by
    rw [hnode1]
    simp [StoreModel.Node.set_extra, StoreModel.dbStoredNodeN, StoreModel.dbStoredNodePreN]
  have hco := StoreModel.cloneOutputs_spec g cfg i hag ha hl hcm
    (StoreModel.getOutgoing w cacheId .createLink) w1
    (by rw [hnext1]; exact hi)
    histored1
    (by
      intro e he
      obtain ⟨ht, hti, hstor, hnc⟩ := houts e he
      rw [hframe1 e.target hti, hnext1]
      exact ⟨ht, hti, hstor, hnc⟩)
  have haoc : StoreModel.addOutputsFromCache (g + 1) cfg w1 i cacheId =
      StoreModel.cloneOutputs (g + 1) cfg w1 i
        (StoreModel.getOutgoing w cacheId .createLink) := by
    rw [StoreModel.addOutputsFromCache, houtg]
  rcases hres2 : StoreModel.cloneOutputs (g + 1) cfg w1 i
      (StoreModel.getOutgoing w cacheId .createLink) with ⟨w2, oe2⟩
  rw [hres2] at hco
  simp only at hco
  obtain ⟨hoe2, hnext2, hframe2, hgroups2, ⟨extra, hlinks2⟩, hk2⟩ := hco
  subst hoe2
  have hfin : StoreModel.store (g + 1 + 1) cfg w i true (some true) = (w2, none) := by
    rw [hstoreeq, hres1]
    simp only
    rw [haoc, hres2]
    simp only
    exact StoreModel.autogroupStep_none cfg w2 i hag
  have hnodei : w2.node i =
      (StoreModel.dbStoredNodeN cfg (StoreModel.cacheCopiedNode w i cacheId)
        ((w.node cacheId).folderContents) i).set_extra StoreModel.cachedFromKey
        (some (w.node cacheId).uuid) := by
    rw [hframe2 i (by rw [hnext1]; exact hi)]
    exact hnode1
  have hattrseq : (StoreModel.cacheCopiedNode w i cacheId).attrsCache =
      ((w.node cacheId).iterattrs).filter (fun kv => !(kv.1 == StoreModel.SEALED_KEY)) := by
    simp only [StoreModel.cacheCopiedNode, hattrs]
    rw [StoreModel.foldAssoc_append _ [] (fun kv _ => rfl) hnodup]
    simp
  rw [hfin]
  simp only
  refine ⟨trivial, ?_, ?_, ?_, ?_, ?_, ?_, ?_, ?_, ?_⟩
  · rw [hnodei]
    simp [StoreModel.Node.set_extra, StoreModel.dbStoredNodeN, StoreModel.dbStoredNodePreN,
      StoreModel.cacheCopiedNode]
  · rw [hnodei]
    simp [StoreModel.Node.set_extra, StoreModel.dbStoredNodeN, StoreModel.dbStoredNodePreN,
      StoreModel.cacheCopiedNode]
  · rw [hnodei]
    simp only [StoreModel.Node.set_extra, StoreModel.dbStoredNodeN,
      StoreModel.dbStoredNodePreN]
    simpa using hattrseq
  · rw [hnodei]
    simp [StoreModel.Node.set_extra, StoreModel.dbStoredNodeN, StoreModel.dbStoredNodePreN]
  · rw [hnodei]
    simp [StoreModel.Node.set_extra, StoreModel.dbStoredNodeN, StoreModel.dbStoredNodePreN]
  · rw [hnodei]
    simp [StoreModel.Node.get_cache_source, StoreModel.Node.get_extra,
      StoreModel.Node.set_extra, assocFind_assocSet_self]
  · rw [hnodei]
    simp [StoreModel.Node.is_created_from_cache, StoreModel.Node.get_cache_source,
      StoreModel.Node.get_extra, StoreModel.Node.set_extra, assocFind_assocSet_self]
  · intro k hk
    have hkk := hk2 k hk
    have hmem := (StoreModel.getOutgoing w cacheId .createLink).get_mem k hk
    have hti := (houts _ hmem).2.1
    constructor
    · have := hkk.1
      rw [hnext1, hframe1 _ hti] at this
      exact this
    · have := hkk.2
      rw [hnext1] at this
      exact this
  · intro orig selfId lbl d
    refine ⟨?_, ?_, ?_, ?_⟩ <;>
      simp [StoreModel.storedCloneNode, StoreModel.dbStoredNodeN,
        StoreModel.dbStoredNodePreN, StoreModel.Node.set_extra, StoreModel.Node.clone,
        StoreModel.Node.add_incoming, StoreModel.Node.get_attrs]

/-- Witness for C4 at the concrete caching world: storing node 1 with
caching enabled copies node 0's label, marks the node as created from the
cache with source uuid u-cache, and produces a stored clone of the CREATE
output under the fresh id 3, linked from node 1 by a CREATE link labelled
result. -/
theorem C4_cache_hit_store_witness :
    (StoreModel.store 2 plainCfg cacheWorld 1 true (some true)).2 = none ∧
    ((StoreModel.store 2 plainCfg cacheWorld 1 true (some true)).1.node 1).label =
      "cached label" ∧
    ((StoreModel.store 2 plainCfg cacheWorld 1 true
      (some true)).1.node 1).get_cache_source = some "u-cache" ∧
    ((StoreModel.store 2 plainCfg cacheWorld 1 true
      (some true)).1.node 1).is_created_from_cache = true ∧
    ((StoreModel.store 2 plainCfg cacheWorld 1 true (some true)).1.node 3).toBeStored
      = false ∧
    ({ source := 1, target := 3, linkType := .createLink, linkLabel := "result" } : StoreModel.StoredLink) ∈
      (StoreModel.store 2 plainCfg cacheWorld 1 true (some true)).1.links := by
  have hsame : StoreModel.getSameNode plainCfg cacheWorld 1 = some 0 := by
    have heq := StoreModel.getSameNode_eq_find? plainCfg cacheWorld 1 "h0"
      (by simp [cacheWorld, sampleNode])
      (by simp [StoreModel.Node.get_hash_default, StoreModel.Node.get_hash, plainCfg])
      (by simp)
    rw [heq]
    have h3 : cacheWorld.nextId = 3 := rfl
    rw [h3]
    rw [List.range_succ, List.range_succ, List.range_succ, List.range_zero]
    simp [StoreModel.sameNodePred, cacheWorld, cacheSourceNode, cacheOutputNode,
      sampleNode, StoreModel.Node.is_stored, StoreModel.hashKey, assocFind]
  have h := C4_cache_hit_store 0 plainCfg cacheWorld 1 0
    (by simp [cacheWorld, sampleNode])
    (by simp [cacheWorld, sampleNode])
    (by simp [cacheWorld, sampleNode])
    (by simp [cacheWorld, sampleNode])
    (by decide)
    hsame
    (by simp [StoreModel.getOutgoing, cacheWorld])
    rfl rfl rfl rfl
    (by
      intro e he
      simp [StoreModel.getOutgoing, cacheWorld] at he
      subst he
      simp [cacheWorld, cacheOutputNode, sampleNode, plainCfg])
    (by simp [cacheWorld, cacheSourceNode, sampleNode, StoreModel.Node.iterattrs,
      StoreModel.Node.is_stored])
  have hk0 : 0 < (StoreModel.getOutgoing cacheWorld 0 .createLink).length := by
    simp [StoreModel.getOutgoing, cacheWorld]
  have hout := h.2.2.2.2.2.2.2.2.1 0 hk0
  refine ⟨h.1, ?_, ?_, ?_, ?_, ?_⟩
  · rw [h.2.1]
    simp [cacheWorld, cacheSourceNode, sampleNode]
  · rw [h.2.2.2.2.2.2.1]
    simp [cacheWorld, cacheSourceNode, sampleNode]
  · exact h.2.2.2.2.2.2.2.1
  · have h1 := hout.1
    have h2 := h.2.2.2.2.2.2.2.2.2 cacheOutputNode 1 "result" 3
    have hval : (StoreModel.getOutgoing cacheWorld 0 .createLink).get ⟨0, hk0⟩ =
        { source := 0, target := 2, linkType := .createLink, linkLabel := "result" } := by
      simp [StoreModel.getOutgoing, cacheWorld]
    rw [hval] at h1
    have hidx : cacheWorld.nextId + 0 = 3 := rfl
    rw [hidx] at h1
    have hnode2 : cacheWorld.node 2 = cacheOutputNode := by simp [cacheWorld]
    rw [hnode2] at h1
    rw [h1]
    exact h2.1
  · have h1 := hout.2
    have hval : (StoreModel.getOutgoing cacheWorld 0 .createLink).get ⟨0, hk0⟩ =
        { source := 0, target := 2, linkType := .createLink, linkLabel := "result" } := by
      simp [StoreModel.getOutgoing, cacheWorld]
    rw [hval] at h1
    have hidx : cacheWorld.nextId + 0 = 3 := rfl
    rw [hidx] at h1
    exact h1

end Aiida
